import Mathlib

/-!
Verification of the wintergreen academy backend (Node.js / Express / Mongoose).

JavaScript strings are embedded as `List Char`; the handful of string
operations the source uses (`split`, `padStart`, `toUpperCase`, `parseInt`,
decimal rendering of numbers, lexicographic comparison as used by a MongoDB
descending sort on a string field) are re-implemented here faithfully.
Mongoose documents become Lean structures, collections become lists, and each
route handler or model hook that a claim touches becomes a pure function from
request plus store state to a result plus new store state.
-/

namespace Wintergreen

/-- Embedding of `String.prototype.split(sep)` for a one-character separator:
splits at every occurrence, keeping empty pieces, always returning at least
one piece. -/
def jsSplit (sep : Char) : List Char → List (List Char)
  | [] => [[]]
  | c :: rest =>
    if c = sep then [] :: jsSplit sep rest
    else
      match jsSplit sep rest with
      | [] => [[c]]
      | g :: gs => (c :: g) :: gs

/-- `/^[A-Za-z]/.test(word)` on the first character: ASCII letter test. -/
def isAsciiLetter (c : Char) : Bool :=
  ('A' ≤ c && c ≤ 'Z') || ('a' ≤ c && c ≤ 'z')

/-- Fuel-driven helper for the decimal rendering of a natural number; the
fuel only serves structural termination and is irrelevant once it exceeds the
argument. -/
def natToCharsAux : Nat → Nat → List Char
  | 0, _ => []
  | fuel + 1, n =>
    if n < 10 then [Nat.digitChar n]
    else natToCharsAux fuel (n / 10) ++ [Nat.digitChar (n % 10)]

/-- Embedding of `String(n)` for a natural number: its decimal digits. -/
def natToChars (n : Nat) : List Char :=
  natToCharsAux (n + 1) n

theorem natToCharsAux_fuel {f1 f2 n : Nat} (h1 : n < f1) (h2 : n < f2) :
    natToCharsAux f1 n = natToCharsAux f2 n := by
  induction f1 generalizing f2 n with
  | zero => omega
  | succ f1 ih =>
    cases f2 with
    | zero => omega
    | succ f2 =>
      by_cases hn : n < 10
      · simp [natToCharsAux, hn]
      · have hd : n / 10 < n := Nat.div_lt_self (by omega) (by omega)
        simp only [natToCharsAux, hn, if_false]
        exact congrArg (fun l => l ++ [Nat.digitChar (n % 10)])
          (@ih f2 (n / 10) (by omega) (by omega))

/-- The recursion equation `String(n)` satisfies: last decimal digit last. -/
theorem natToChars_eq (n : Nat) :
    natToChars n = if n < 10 then [Nat.digitChar n]
      else natToChars (n / 10) ++ [Nat.digitChar (n % 10)] := by
  by_cases hn : n < 10
  · simp [natToChars, natToCharsAux, hn]
  · have hd : n / 10 < n := Nat.div_lt_self (by omega) (by omega)
    simp only [natToChars, hn, if_false]
    show natToCharsAux (n + 1) n = _
    cases n with
    | zero => omega
    | succ m =>
      simp only [natToCharsAux, hn, if_false]
      exact congrArg (fun l => l ++ [Nat.digitChar ((m + 1) % 10)])
        (@natToCharsAux_fuel (m + 1) ((m + 1) / 10 + 1) ((m + 1) / 10)
          (by omega) (by omega))

/-- Embedding of `s.padStart(w, c)`. -/
def padStart (w : Nat) (c : Char) (s : List Char) : List Char :=
  List.replicate (w - s.length) c ++ s

/-- `String(n).padStart(4, '0')`, the sequence rendering used by both the
student-ID and the transaction-reference generators. -/
def pad4 (n : Nat) : List Char :=
  padStart 4 '0' (natToChars n)

/-! ## Student ID generation (src/models/Student.js, `generateStudentId`) -/

/-- One iteration of the `for (const word of words)` loop in
`generateStudentId`: append the uppercased first character of `w` when `w` is
non-empty and starts with an ASCII letter. -/
def initialsStep (acc : List Char) (w : List Char) : List Char :=
  match w with
  | [] => acc
  | c :: _ => if isAsciiLetter c then acc ++ [c.toUpper] else acc

/-- The part of `generateStudentId` that builds the course-title root: loop
over the words of `title.split(' ')`, fall back to `"STU"` when nothing was
collected, cap at 6 characters via `substring(0, 6)`. -/
def studentIdRoot (title : List Char) : List Char :=
  ((fun p => if p.length = 0 then ['S', 'T', 'U'] else p)
    ((jsSplit ' ' title).foldl initialsStep [])).take 6

/-- `Student.generateStudentId` (src/models/Student.js lines 133-166): title
root followed by `String(currentEnrolled + 1).padStart(4, '0')`. -/
def generateStudentId (title : List Char) (currentEnrolled : Nat) : List Char :=
  studentIdRoot title ++ pad4 (currentEnrolled + 1)

/-- The uppercased first letter of a word that starts with an alphabetic
character, as the specification describes it. -/
def initialLetter (w : List Char) : Option Char :=
  match w with
  | [] => none
  | c :: _ => if isAsciiLetter c then some c.toUpper else none

/-- Stated from the specification's words, for comparison with the source:
"the concatenation of the uppercased first letters of the title's words that
start with an alphabetic character". -/
def specInitials (title : List Char) : List Char :=
  (jsSplit ' ' title).filterMap initialLetter

/-- Stated from the specification's words: initials with the `"STU"` fallback
when empty, truncated to at most 6 characters, followed by the 4-digit
zero-padded rendering of `currentEnrolled + 1`. -/
def specStudentId (title : List Char) (currentEnrolled : Nat) : List Char :=
  (if (specInitials title).isEmpty then ['S', 'T', 'U'] else specInitials title).take 6
    ++ pad4 (currentEnrolled + 1)

theorem foldl_initials_eq (ws : List (List Char)) (acc : List Char) :
    ws.foldl initialsStep acc = acc ++ ws.filterMap initialLetter := by
  induction ws generalizing acc with
  | nil => simp
  | cons w ws ih =>
    cases w with
    | nil => simpa [initialsStep, initialLetter] using ih acc
    | cons c cs =>
      by_cases h : isAsciiLetter c
      · simp [initialsStep, initialLetter, h, ih]
      · simp [initialsStep, initialLetter, h, ih]

/-- C2: the generated student ID agrees with the specification's description
for every course title and enrollment count. -/
theorem generateStudentId_eq_spec (title : List Char) (currentEnrolled : Nat) :
    generateStudentId title currentEnrolled = specStudentId title currentEnrolled := by
  unfold generateStudentId specStudentId studentIdRoot specInitials
  rw [foldl_initials_eq]
  rcases h : (jsSplit ' ' title).filterMap initialLetter with _ | ⟨c, cs⟩
  · simp
  · simp

/-! ## Entities -/

/-- User roles (src/models/User.js). -/
inductive Role
  | superAdmin
  | admin
  | moderator
  | staff
deriving DecidableEq, Repr

/-- The `branch` field of a Course is either the literal string `'all'` or a
branch id (src/models/Course.js, Mixed type). -/
inductive CourseBranch
  | all
  | specific (branchId : Nat)
deriving DecidableEq, Repr

/-- Course document, with the fields the verified operations read
(src/models/Course.js). -/
structure Course where
  id : Nat
  title : List Char
  maxStudents : Nat
  currentEnrolled : Nat
  branch : CourseBranch
  isActive : Bool
deriving DecidableEq, Repr

/-- `courseSchema.methods.isFull` (src/models/Course.js lines 133-136):
`currentEnrolled >= maxStudents`. -/
def Course.isFull (c : Course) : Bool :=
  decide (c.currentEnrolled ≥ c.maxStudents)

/-- Modelled from the spec: `course.enrollStudent()` is called from
src/routes/students.js but the method is defined nowhere under src/. The
specification says `enrollStudent()`/`unenrollStudent()` "adjust
`currentEnrolled` by ±1, guarded by `isFull()`". -/
def Course.enrollStudent (c : Course) : Course :=
  if c.isFull then c else { c with currentEnrolled := c.currentEnrolled + 1 }

/-- Branch document (src/models/Branch.js). -/
structure Branch where
  id : Nat
  isActive : Bool
deriving DecidableEq, Repr

/-- Student document, with the fields the verified operations read
(src/models/Student.js). -/
structure Student where
  studentId : List Char
  email : List Char
  course : Nat
  branch : Nat
  isActive : Bool
deriving DecidableEq, Repr

/-- User document, with the fields the verified operations read
(src/models/User.js). -/
structure UserRec where
  id : Nat
  branch : Option Nat
  role : Role
  isActive : Bool
deriving DecidableEq, Repr

/-- The authenticated identity placed on `req.user` by `authenticateToken`
(src/middleware/auth.js): role plus effective branch. -/
structure Identity where
  role : Role
  branch : Option Nat
deriving DecidableEq, Repr

/-- `Branch.findById`: the document with the given id, if any. -/
def findBranch : List Branch → Nat → Option Branch
  | [], _ => none
  | b :: bs, bid => if b.id == bid then some b else findBranch bs bid

/-- `Course.findById`: the document with the given id, if any. -/
def findCourse : List Course → Nat → Option Course
  | [], _ => none
  | c :: cs, cid => if c.id == cid then some c else findCourse cs cid

/-! ## Student creation (src/routes/students.js, `router.post('/')`) -/

/-- The request body fields of `POST /api/students` that the guarded checks
read. -/
structure CreateStudentReq where
  email : List Char
  course : Nat
  branch : Option Nat
deriving DecidableEq, Repr

/-- Outcome of `POST /api/students`, one constructor per distinct response of
the handler. -/
inductive CreateStudentResult
  | created (studentId : List Char)
  | insufficientPermissions
  | otherBranchDenied
  | invalidBranch
  | invalidCourse
  | courseNotAvailable
  | courseFull
  | duplicateEmail
  | duplicateKey
  | internalError
deriving DecidableEq, Repr

/-- The collections `POST /api/students` touches. -/
structure StudentsStore where
  branches : List Branch
  courses : List Course
  students : List Student
deriving DecidableEq, Repr

/-- `requireRole('superAdmin', 'admin', 'moderator')` on the student-creation
route. -/
def createStudentRoleOk (r : Role) : Bool :=
  r == .superAdmin || r == .admin || r == .moderator

/-- Lines 160-167 of src/routes/students.js: non-superAdmin callers are
pinned to their own branch and rejected if they name another one. -/
def resolveTargetBranch (ident : Identity) (reqBranch : Option Nat) :
    Except CreateStudentResult (Option Nat) :=
  if ident.role == .superAdmin then .ok reqBranch
  else
    match ident.branch with
    | none => .error .internalError
    | some ub =>
      match reqBranch with
      | some b => if b ≠ ub then .error .otherBranchDenied else .ok (some ub)
      | none => .ok (some ub)

/-- `POST /api/students` (src/routes/students.js lines 131-263): role guard,
branch resolution, branch/course existence and activity checks, course
availability for the caller's branch, the `isFull()` guard, the duplicate
active-email pre-check, student-ID generation, the unique `studentId` index,
and finally `course.enrollStudent()`. -/
def createStudent (ident : Identity) (req : CreateStudentReq) (st : StudentsStore) :
    CreateStudentResult × StudentsStore :=
  if !createStudentRoleOk ident.role then (.insufficientPermissions, st) else
  match resolveTargetBranch ident req.branch with
  | .error e => (e, st)
  | .ok targetBranch =>
    match targetBranch.bind (findBranch st.branches) with
    | none => (.invalidBranch, st)
    | some brDoc =>
      if !brDoc.isActive then (.invalidBranch, st) else
      match findCourse st.courses req.course with
      | none => (.invalidCourse, st)
      | some courseDoc =>
        if !courseDoc.isActive then (.invalidCourse, st) else
        if ident.role != .superAdmin &&
            !(courseDoc.branch == .all ||
              courseDoc.branch == .specific (ident.branch.getD 0)) then
          (.courseNotAvailable, st)
        else if courseDoc.isFull then (.courseFull, st)
        else if st.students.any
            (fun s => s.email == req.email.map Char.toLower && s.isActive) then
          (.duplicateEmail, st)
        else
          let newId := generateStudentId courseDoc.title courseDoc.currentEnrolled
          if st.students.any (fun s => s.studentId == newId) then (.duplicateKey, st)
          else
            (.created newId,
             { st with
                courses := st.courses.map
                  (fun c => if c.id == req.course then Course.enrollStudent c else c),
                students := st.students ++
                  [{ studentId := newId, email := req.email.map Char.toLower,
                     course := req.course, branch := brDoc.id, isActive := true }] })

theorem enrollStudent_id (c : Course) : (Course.enrollStudent c).id = c.id := by
  unfold Course.enrollStudent
  split <;> rfl

theorem findCourse_map_enroll (courses : List Course) (cid : Nat) (course : Course)
    (h : findCourse courses cid = some course) :
    findCourse (courses.map (fun c => if c.id == cid then Course.enrollStudent c else c)) cid
      = some (Course.enrollStudent course) := by
  induction courses with
  | nil => simp [findCourse] at h
  | cons c cs ih =>
    by_cases hid : c.id = cid
    · have hb : (c.id == cid) = true := by simpa using hid
      have hb' : ((Course.enrollStudent c).id == cid) = true := by
        simpa [enrollStudent_id] using hid
      simp only [findCourse, hb, if_true, Option.some.injEq] at h
      subst h
      simp [findCourse, hb, hb']
    · have hb : (c.id == cid) = false := by simpa using hid
      simp only [findCourse, hb, Bool.false_eq_true, if_false] at h
      simp only [List.map_cons, findCourse, hb, Bool.false_eq_true, if_false]
      exact ih h

/-- C1: with every other precondition of the handler satisfied, a student
creation against a course with free capacity succeeds and bumps the course's
`currentEnrolled` by exactly one, while a creation against a full course
fails with the course-full error and changes nothing. -/
theorem student_creation_course_full_guard
    (ident : Identity) (req : CreateStudentReq) (st : StudentsStore)
    (course : Course) (br : Branch)
    (hrole : createStudentRoleOk ident.role = true)
    (htb : resolveTargetBranch ident req.branch = .ok (some br.id))
    (hbr : findBranch st.branches br.id = some br)
    (hbract : br.isActive = true)
    (hc : findCourse st.courses req.course = some course)
    (hcact : course.isActive = true)
    (havail : ident.role = .superAdmin ∨ course.branch = .all ∨
      course.branch = .specific (ident.branch.getD 0))
    (hemail : st.students.any
      (fun s => s.email == req.email.map Char.toLower && s.isActive) = false)
    (hfresh : st.students.any
      (fun s => s.studentId == generateStudentId course.title course.currentEnrolled) = false) :
    (course.currentEnrolled < course.maxStudents →
      (createStudent ident req st).1
          = .created (generateStudentId course.title course.currentEnrolled) ∧
      findCourse (createStudent ident req st).2.courses req.course
          = some { course with currentEnrolled := course.currentEnrolled + 1 }) ∧
    (course.maxStudents ≤ course.currentEnrolled →
      (createStudent ident req st).1 = .courseFull ∧
      (createStudent ident req st).2 = st) := by
  have havailb : (ident.role != .superAdmin &&
      !(course.branch == .all ||
        course.branch == .specific (ident.branch.getD 0))) = false := by
    rcases havail with h | h | h <;> simp [h]
  constructor
  · intro hlt
    have hfull : course.isFull = false := by
      simp [Course.isFull]
      omega
    have hres : createStudent ident req st
        = (.created (generateStudentId course.title course.currentEnrolled),
           { st with
              courses := st.courses.map
                (fun c => if c.id == req.course then Course.enrollStudent c else c),
              students := st.students ++
                [{ studentId := generateStudentId course.title course.currentEnrolled,
                   email := req.email.map Char.toLower,
                   course := req.course, branch := br.id, isActive := true }] }) := by
      unfold createStudent
      rw [hrole, htb]
      simp [hbr, hbract, hc, hcact, havailb, hfull, hemail, hfresh]
      tauto
    constructor
    · rw [hres]
    · rw [hres]
      have := findCourse_map_enroll st.courses req.course course hc
      simpa [Course.enrollStudent, hfull] using this
  · intro hge
    have hfull : course.isFull = true := by
      simp [Course.isFull]
      omega
    have hres : createStudent ident req st = (.courseFull, st) := by
      unfold createStudent
      rw [hrole, htb]
      simp [hbr, hbract, hc, hcact, havailb, hfull]
      tauto
    rw [hres]
    exact ⟨rfl, rfl⟩

/-- Witness for C1, instantiating the §8 scenario: branch "Colombo" (id 1),
course "Web Dev" with `maxStudents = 1`, an admin scoped to the branch. The
first creation succeeds and `currentEnrolled` becomes 1; a second creation
against the now-full course fails with the course-full error. -/
theorem student_creation_course_full_guard_witness :
    ((createStudent ⟨.admin, some 1⟩ ⟨"kasun@x.lk".data, 10, none⟩
        ⟨[⟨1, true⟩], [⟨10, "Web Dev".data, 1, 0, .specific 1, true⟩], []⟩).1
      = .created "WD0001".data ∧
     findCourse (createStudent ⟨.admin, some 1⟩ ⟨"kasun@x.lk".data, 10, none⟩
        ⟨[⟨1, true⟩], [⟨10, "Web Dev".data, 1, 0, .specific 1, true⟩], []⟩).2.courses 10
      = some ⟨10, "Web Dev".data, 1, 1, .specific 1, true⟩) ∧
    ((createStudent ⟨.admin, some 1⟩ ⟨"nimal@x.lk".data, 10, none⟩
        ⟨[⟨1, true⟩], [⟨10, "Web Dev".data, 1, 1, .specific 1, true⟩],
         [⟨"WD0001".data, "kasun@x.lk".data, 10, 1, true⟩]⟩).1 = .courseFull ∧
     (createStudent ⟨.admin, some 1⟩ ⟨"nimal@x.lk".data, 10, none⟩
        ⟨[⟨1, true⟩], [⟨10, "Web Dev".data, 1, 1, .specific 1, true⟩],
         [⟨"WD0001".data, "kasun@x.lk".data, 10, 1, true⟩]⟩).2
      = ⟨[⟨1, true⟩], [⟨10, "Web Dev".data, 1, 1, .specific 1, true⟩],
         [⟨"WD0001".data, "kasun@x.lk".data, 10, 1, true⟩]⟩) := by
  constructor
  · have h := (student_creation_course_full_guard ⟨.admin, some 1⟩
      ⟨"kasun@x.lk".data, 10, none⟩
      ⟨[⟨1, true⟩], [⟨10, "Web Dev".data, 1, 0, .specific 1, true⟩], []⟩
      ⟨10, "Web Dev".data, 1, 0, .specific 1, true⟩ ⟨1, true⟩
      (by rfl) (by rfl) (by rfl) (by rfl) (by rfl) (by rfl)
      (by decide) (by rfl) (by rfl)).1 (by decide)
    exact ⟨h.1.trans (by decide), h.2.trans (by decide)⟩
  · have h := (student_creation_course_full_guard ⟨.admin, some 1⟩
      ⟨"nimal@x.lk".data, 10, none⟩
      ⟨[⟨1, true⟩], [⟨10, "Web Dev".data, 1, 1, .specific 1, true⟩],
       [⟨"WD0001".data, "kasun@x.lk".data, 10, 1, true⟩]⟩
      ⟨10, "Web Dev".data, 1, 1, .specific 1, true⟩ ⟨1, true⟩
      (by rfl) (by rfl) (by rfl) (by rfl) (by rfl) (by rfl)
      (by decide) (by rfl) (by rfl)).2 (by decide)
    exact ⟨h.1, h.2⟩

/-! ## Transactions and budgets (src/unnamed/part_006 and the Budget model
in src/models/Student.js / src/unnamed/part_005) -/

/-- Transaction `type` field. -/
inductive TxType
  | income
  | expense
deriving DecidableEq, Repr

/-- Transaction `status` field. -/
inductive TxStatus
  | pending
  | completed
  | cancelled
deriving DecidableEq, Repr

/-- Transaction document, with the fields the verified operations read.
Amounts are JavaScript numbers; the amounts the schema accepts are modelled
as rationals. -/
structure Txn where
  txType : TxType
  category : List Char
  amount : ℚ
  date : Int
  status : TxStatus
  reference : Option (List Char)
  branch : Nat
  isActive : Bool
deriving DecidableEq, Repr

/-- Budget `status` field. -/
inductive BudgetStatus
  | active
  | inactive
  | completed
  | exceeded
deriving DecidableEq, Repr

/-- Budget document, with the fields the verified operations read. -/
structure Budget where
  id : Nat
  category : List Char
  allocated : ℚ
  spent : ℚ
  startDate : Int
  endDate : Int
  status : BudgetStatus
  branch : Nat
  isActive : Bool
deriving DecidableEq, Repr

/-- The `$match` stage of `updateSpentAmount` (Budget model, lines 374-397):
same branch and category, expense, completed, date within
`[startDate, endDate]`, active. -/
def budgetTxnMatches (b : Budget) (t : Txn) : Bool :=
  t.branch == b.branch && t.category == b.category && t.txType == TxType.expense &&
    t.status == TxStatus.completed && decide (b.startDate ≤ t.date) &&
    decide (t.date ≤ b.endDate) && t.isActive

/-- The `$group`/`$sum` stage: total of `amount`, 0 when nothing matches. -/
def sumAmounts (ts : List Txn) : ℚ :=
  ts.foldl (fun a t => a + t.amount) 0

/-- The assignments of `updateSpentAmount`: recompute `spent`, then derive
`status` (`exceeded` when spent ≥ allocated, else `completed` when now is
past `endDate`, else `active`). -/
def Budget.recomputeSpent (now : Int) (txns : List Txn) (b : Budget) : Budget :=
  { b with
      spent := sumAmounts (txns.filter (budgetTxnMatches b)),
      status :=
        if b.allocated ≤ sumAmounts (txns.filter (budgetTxnMatches b)) then .exceeded
        else if b.endDate < now then .completed
        else .active }

/-- `budget.save()`: the pre-save hook rejects a document whose end date is
not after its start date. -/
def Budget.save (b : Budget) : Except Unit Budget :=
  if b.endDate ≤ b.startDate then .error () else .ok b

/-- `budgetSchema.methods.updateSpentAmount` (lines 374-411): recompute and
persist. -/
def Budget.updateSpentAmount (now : Int) (txns : List Txn) (b : Budget) :
    Except Unit Budget :=
  (Budget.recomputeSpent now txns b).save

theorem budgetTxnMatches_eq_decide (b : Budget) (t : Txn) :
    budgetTxnMatches b t
      = decide (t.branch = b.branch ∧ t.category = b.category ∧
          t.txType = TxType.expense ∧ t.status = TxStatus.completed ∧
          b.startDate ≤ t.date ∧ t.date ≤ b.endDate ∧ t.isActive = true) := by
  apply Bool.eq_iff_iff.mpr
  simp [budgetTxnMatches, and_assoc]

theorem budgetTxnMatches_recompute (now : Int) (txns : List Txn) (b : Budget) :
    budgetTxnMatches (Budget.recomputeSpent now txns b) = budgetTxnMatches b := by
  funext t
  simp [budgetTxnMatches, Budget.recomputeSpent]

/-- C5: `updateSpentAmount()` sets `spent` to the sum of the amounts of the
active, completed, expense transactions of the budget's branch and category
dated within the budget window, derives `status` as described, and a second
call with the same transactions yields the same `spent`. -/
theorem updateSpentAmount_rollup_and_idempotent
    (now now2 : Int) (txns : List Txn) (b : Budget)
    (hdates : b.startDate < b.endDate) :
    ∃ b1, Budget.updateSpentAmount now txns b = Except.ok b1 ∧
      b1.spent = sumAmounts (txns.filter (fun t =>
        decide (t.branch = b.branch ∧ t.category = b.category ∧
          t.txType = TxType.expense ∧ t.status = TxStatus.completed ∧
          b.startDate ≤ t.date ∧ t.date ≤ b.endDate ∧ t.isActive = true))) ∧
      b1.status = (if b.allocated ≤ b1.spent then BudgetStatus.exceeded
        else if b.endDate < now then BudgetStatus.completed
        else BudgetStatus.active) ∧
      ∃ b2, Budget.updateSpentAmount now2 txns b1 = Except.ok b2 ∧
        b2.spent = b1.spent := by
  have hfilter : txns.filter (budgetTxnMatches b)
      = txns.filter (fun t =>
          decide (t.branch = b.branch ∧ t.category = b.category ∧
            t.txType = TxType.expense ∧ t.status = TxStatus.completed ∧
            b.startDate ≤ t.date ∧ t.date ≤ b.endDate ∧ t.isActive = true)) := by
    apply List.filter_congr
    intro t _
    rw [budgetTxnMatches_eq_decide]
  refine ⟨Budget.recomputeSpent now txns b, ?_, ?_, ?_, ?_⟩
  · unfold Budget.updateSpentAmount Budget.save
    rw [if_neg]
    simp [Budget.recomputeSpent]
    omega
  · simp [Budget.recomputeSpent, hfilter]
  · simp [Budget.recomputeSpent]
  · refine ⟨Budget.recomputeSpent now2 txns (Budget.recomputeSpent now txns b), ?_, ?_⟩
    · unfold Budget.updateSpentAmount Budget.save
      rw [if_neg]
      simp [Budget.recomputeSpent]
      omega
    · have hs : ∀ (nw : Int) (bb : Budget),
          (Budget.recomputeSpent nw txns bb).spent
            = sumAmounts (txns.filter (budgetTxnMatches bb)) := by
        intro nw bb
        simp [Budget.recomputeSpent]
      rw [hs, hs, budgetTxnMatches_recompute]

/-- Witness for C5 at a concrete budget and transaction list: one matching
expense of 40 and one out-of-category expense against an allocation of 100. -/
theorem updateSpentAmount_rollup_and_idempotent_witness :
    (0 : Int) < 30 ∧
    ∃ b1, Budget.updateSpentAmount 5
        [⟨.expense, "Rent".data, 40, 10, .completed, none, 7, true⟩,
         ⟨.expense, "Food".data, 25, 10, .completed, none, 7, true⟩]
        ⟨1, "Rent".data, 100, 0, 0, 30, .active, 7, true⟩ = Except.ok b1 ∧
      b1.spent = sumAmounts
        ([⟨.expense, "Rent".data, 40, 10, .completed, none, 7, true⟩,
          ⟨.expense, "Food".data, 25, 10, .completed, none, 7, true⟩].filter (fun t =>
          decide (t.branch = 7 ∧ t.category = "Rent".data ∧
            t.txType = TxType.expense ∧ t.status = TxStatus.completed ∧
            (0 : Int) ≤ t.date ∧ t.date ≤ (30 : Int) ∧ t.isActive = true))) ∧
      b1.status = (if (100 : ℚ) ≤ b1.spent then BudgetStatus.exceeded
        else if (30 : Int) < 5 then BudgetStatus.completed
        else BudgetStatus.active) ∧
      ∃ b2, Budget.updateSpentAmount 99
          [⟨.expense, "Rent".data, 40, 10, .completed, none, 7, true⟩,
           ⟨.expense, "Food".data, 25, 10, .completed, none, 7, true⟩] b1 = Except.ok b2 ∧
        b2.spent = b1.spent :=
  ⟨by decide,
   updateSpentAmount_rollup_and_idempotent 5 99
    [⟨.expense, "Rent".data, 40, 10, .completed, none, 7, true⟩,
     ⟨.expense, "Food".data, 25, 10, .completed, none, 7, true⟩]
    ⟨1, "Rent".data, 100, 0, 0, 30, .active, 7, true⟩ (by decide)⟩

/-! ## Soft delete of branches and courses (src/unnamed/part_004 lines
261-293 and src/routes/courses.js lines 357-387) -/

/-- Outcome of a delete handler. -/
inductive DeleteResult
  | notFound
  | resourceInUse
  | deleted
deriving DecidableEq, Repr

/-- `DELETE /api/branches/:id`: refuse while the branch still has active
users, otherwise set `isActive = false`. -/
def deleteBranch (branches : List Branch) (users : List UserRec) (bid : Nat) :
    DeleteResult × List Branch :=
  match findBranch branches bid with
  | none => (.notFound, branches)
  | some _ =>
    if 0 < (users.filter (fun u => u.branch == some bid && u.isActive)).length then
      (.resourceInUse, branches)
    else
      (.deleted, branches.map (fun b =>
        if b.id == bid then { b with isActive := false } else b))

/-- `DELETE /api/courses/:id`: refuse while the course still has enrolled
students, otherwise set `isActive = false`. -/
def deleteCourse (courses : List Course) (cid : Nat) : DeleteResult × List Course :=
  match findCourse courses cid with
  | none => (.notFound, courses)
  | some c =>
    if !c.isActive then (.notFound, courses)
    else if 0 < c.currentEnrolled then (.resourceInUse, courses)
    else
      (.deleted, courses.map (fun c =>
        if c.id == cid then { c with isActive := false } else c))

theorem findBranch_map_deactivate (branches : List Branch) (bid : Nat) (br : Branch)
    (h : findBranch branches bid = some br) :
    findBranch (branches.map (fun b =>
        if b.id == bid then { b with isActive := false } else b)) bid
      = some { br with isActive := false } := by
  induction branches with
  | nil => simp [findBranch] at h
  | cons b bs ih =>
    by_cases hid : b.id = bid
    · have hb : (b.id == bid) = true := by simpa using hid
      simp only [findBranch, hb, if_true, Option.some.injEq] at h
      subst h
      simp [findBranch, hb]
    · have hb : (b.id == bid) = false := by simpa using hid
      simp only [findBranch, hb, Bool.false_eq_true, if_false] at h
      simp only [List.map_cons, findBranch, hb, Bool.false_eq_true, if_false]
      exact ih h

theorem findCourse_map_deactivate (courses : List Course) (cid : Nat) (c : Course)
    (h : findCourse courses cid = some c) :
    findCourse (courses.map (fun d =>
        if d.id == cid then { d with isActive := false } else d)) cid
      = some { c with isActive := false } := by
  induction courses with
  | nil => simp [findCourse] at h
  | cons d ds ih =>
    by_cases hid : d.id = cid
    · have hb : (d.id == cid) = true := by simpa using hid
      simp only [findCourse, hb, if_true, Option.some.injEq] at h
      subst h
      simp [findCourse, hb]
    · have hb : (d.id == cid) = false := by simpa using hid
      simp only [findCourse, hb, Bool.false_eq_true, if_false] at h
      simp only [List.map_cons, findCourse, hb, Bool.false_eq_true, if_false]
      exact ih h

/-- C9: deleting a branch with an active user, or a course with enrolled
students, is refused and mutates nothing; when the precondition holds the
delete only flips `isActive` to false and removes no document. -/
theorem soft_delete_guards :
    (∀ (branches : List Branch) (users : List UserRec) (bid : Nat) (br : Branch)
        (u : UserRec),
      findBranch branches bid = some br →
      u ∈ users → u.branch = some bid → u.isActive = true →
      deleteBranch branches users bid = (.resourceInUse, branches)) ∧
    (∀ (branches : List Branch) (users : List UserRec) (bid : Nat) (br : Branch),
      findBranch branches bid = some br →
      (∀ u ∈ users, u.branch = some bid → u.isActive = false) →
      (deleteBranch branches users bid).1 = .deleted ∧
      findBranch (deleteBranch branches users bid).2 bid
        = some { br with isActive := false } ∧
      (deleteBranch branches users bid).2.length = branches.length) ∧
    (∀ (courses : List Course) (cid : Nat) (c : Course),
      findCourse courses cid = some c → c.isActive = true → 0 < c.currentEnrolled →
      deleteCourse courses cid = (.resourceInUse, courses)) ∧
    (∀ (courses : List Course) (cid : Nat) (c : Course),
      findCourse courses cid = some c → c.isActive = true → c.currentEnrolled = 0 →
      (deleteCourse courses cid).1 = .deleted ∧
      findCourse (deleteCourse courses cid).2 cid
        = some { c with isActive := false } ∧
      (deleteCourse courses cid).2.length = courses.length) := by
  refine ⟨?_, ?_, ?_, ?_⟩
  · intro branches users bid br u hfind hu hub hua
    have hmem : u ∈ users.filter (fun u => u.branch == some bid && u.isActive) :=
      List.mem_filter.mpr ⟨hu, by simp [hub, hua]⟩
    have hpos : 0 < (users.filter (fun u => u.branch == some bid && u.isActive)).length :=
      List.length_pos_of_mem hmem
    unfold deleteBranch
    rw [hfind, if_pos hpos]
  · intro branches users bid br hfind hnone
    have hnil : users.filter (fun u => u.branch == some bid && u.isActive) = [] := by
      apply List.filter_eq_nil_iff.mpr
      intro u hu
      by_cases hub : u.branch = some bid
      · simp [hub, hnone u hu hub]
      · simp [hub]
    have hres : deleteBranch branches users bid
        = (.deleted, branches.map (fun b =>
            if b.id == bid then { b with isActive := false } else b)) := by
      unfold deleteBranch
      rw [hfind, hnil]
      simp
    rw [hres]
    exact ⟨rfl, findBranch_map_deactivate branches bid br hfind, by simp⟩
  · intro courses cid c hfind hact hpos
    unfold deleteCourse
    rw [hfind]
    simp [hact, hpos]
  · intro courses cid c hfind hact hzero
    have hres : deleteCourse courses cid
        = (.deleted, courses.map (fun d =>
            if d.id == cid then { d with isActive := false } else d)) := by
      unfold deleteCourse
      rw [hfind]
      simp [hact, hzero]
    rw [hres]
    exact ⟨rfl, findCourse_map_deactivate courses cid c hfind, by simp⟩

/-- Witness for C9: a branch with one active user is not deletable; after
deactivating the user it is, and only the flag changes. A course with one
enrolled student is not deletable; with zero it is. -/
theorem soft_delete_guards_witness :
    deleteBranch [⟨3, true⟩] [⟨21, some 3, .staff, true⟩] 3
      = (.resourceInUse, [⟨3, true⟩]) ∧
    ((deleteBranch [⟨3, true⟩] [⟨21, some 3, .staff, false⟩] 3).1 = .deleted ∧
     findBranch (deleteBranch [⟨3, true⟩] [⟨21, some 3, .staff, false⟩] 3).2 3
       = some ⟨3, false⟩ ∧
     (deleteBranch [⟨3, true⟩] [⟨21, some 3, .staff, false⟩] 3).2.length = 1) ∧
    deleteCourse [⟨10, "Web Dev".data, 5, 1, .all, true⟩] 10
      = (.resourceInUse, [⟨10, "Web Dev".data, 5, 1, .all, true⟩]) ∧
    ((deleteCourse [⟨10, "Web Dev".data, 5, 0, .all, true⟩] 10).1 = .deleted ∧
     findCourse (deleteCourse [⟨10, "Web Dev".data, 5, 0, .all, true⟩] 10).2 10
       = some ⟨10, "Web Dev".data, 5, 0, .all, false⟩ ∧
     (deleteCourse [⟨10, "Web Dev".data, 5, 0, .all, true⟩] 10).2.length = 1) := by
  refine ⟨?_, ?_, ?_, ?_⟩
  · exact soft_delete_guards.1 [⟨3, true⟩] [⟨21, some 3, .staff, true⟩] 3 ⟨3, true⟩
      ⟨21, some 3, .staff, true⟩ (by rfl) (by simp) (by rfl) (by rfl)
  · exact soft_delete_guards.2.1 [⟨3, true⟩] [⟨21, some 3, .staff, false⟩] 3 ⟨3, true⟩
      (by rfl) (by decide)
  · exact soft_delete_guards.2.2.1 [⟨10, "Web Dev".data, 5, 1, .all, true⟩] 10
      ⟨10, "Web Dev".data, 5, 1, .all, true⟩ (by rfl) (by rfl) (by decide)
  · exact soft_delete_guards.2.2.2 [⟨10, "Web Dev".data, 5, 0, .all, true⟩] 10
      ⟨10, "Web Dev".data, 5, 0, .all, true⟩ (by rfl) (by rfl) (by rfl)

/-! ## Budget routes (src/unnamed/part_005) -/

/-- Error outcomes of the budget write handlers. -/
inductive BudgetWriteError
  | notSuperAdmin
  | invalidBranch
  | invalidDateRange
  | overlap
  | duplicateKey
  | notFound
  | validationFailed
deriving DecidableEq, Repr

/-- Body of `POST /api/budgets`, with the fields the handler reads. -/
structure CreateBudgetReq where
  category : List Char
  allocated : ℚ
  startDate : Int
  endDate : Int
  status : Option BudgetStatus
  branch : Option Nat
deriving DecidableEq, Repr

/-- Body of `PUT /api/budgets/:id`: every field optional. -/
structure UpdateBudgetReq where
  category : Option (List Char)
  allocated : Option ℚ
  startDate : Option Int
  endDate : Option Int
  status : Option BudgetStatus
deriving DecidableEq, Repr

/-- The `$or` of the overlap query (lines 200-213 and 313-326): the existing
range contains the new start, or contains the new end, or lies inside the new
range. -/
def budgetOverlapTest (start finish : Int) (e : Budget) : Bool :=
  (decide (e.startDate ≤ start) && decide (start ≤ e.endDate)) ||
  (decide (e.startDate ≤ finish) && decide (finish ≤ e.endDate)) ||
  (decide (start ≤ e.startDate) && decide (e.endDate ≤ finish))

/-- The overlap `findOne`: another active budget of the same branch and
category whose range passes `budgetOverlapTest`, optionally excluding the
budget being updated. -/
def findOverlappingBudget (budgets : List Budget) (branch : Nat) (category : List Char)
    (excludeId : Option Nat) (start finish : Int) : Option Budget :=
  budgets.find? (fun e =>
    (match excludeId with
     | some i => e.id != i
     | none => true) &&
    e.branch == branch && e.category == category && e.isActive &&
    budgetOverlapTest start finish e)

/-- `Budget.findOne({_id, isActive: true})`. -/
def findActiveBudget : List Budget → Nat → Option Budget
  | [], _ => none
  | b :: bs, i => if b.id == i && b.isActive then some b else findActiveBudget bs i

/-- Persisting a brand-new budget document: the pre-save date validation plus
the unique partial index on `(branch, category, startDate, endDate)` over
active documents. -/
def saveBudgetNew (budgets : List Budget) (nb : Budget) :
    Except BudgetWriteError (List Budget) :=
  if nb.endDate ≤ nb.startDate then .error .validationFailed
  else if nb.isActive && budgets.any (fun e =>
      e.isActive && e.branch == nb.branch && e.category == nb.category &&
      e.startDate == nb.startDate && e.endDate == nb.endDate) then
    .error .duplicateKey
  else .ok (budgets ++ [nb])

/-- Persisting an updated budget document: same validation and unique index,
excluding the document itself. -/
def saveBudgetUpdate (budgets : List Budget) (nb : Budget) :
    Except BudgetWriteError (List Budget) :=
  if nb.endDate ≤ nb.startDate then .error .validationFailed
  else if nb.isActive && budgets.any (fun e =>
      e.id != nb.id && e.isActive && e.branch == nb.branch && e.category == nb.category &&
      e.startDate == nb.startDate && e.endDate == nb.endDate) then
    .error .duplicateKey
  else .ok (budgets.map (fun e => if e.id == nb.id then nb else e))

/-- `POST /api/budgets` (lines 152-261): superAdmin guard, branch check, date
check, overlap check, save, then the `updateSpentAmount()` refresh of the new
document. A request without a branch reaches `save()` and fails its
required-field validation, since the overlap query over an undefined branch
matches nothing. -/
def createBudget (ident : Identity) (req : CreateBudgetReq) (newId : Nat) (now : Int)
    (txns : List Txn) (branches : List Branch) (budgets : List Budget) :
    Except BudgetWriteError (List Budget) :=
  if ident.role != .superAdmin then .error .notSuperAdmin else
  match req.branch with
  | none => .error .validationFailed
  | some bid =>
    match findBranch branches bid with
    | none => .error .invalidBranch
    | some br =>
      if !br.isActive then .error .invalidBranch
      else if req.endDate ≤ req.startDate then .error .invalidDateRange
      else
        match findOverlappingBudget budgets bid req.category none req.startDate req.endDate with
        | some _ => .error .overlap
        | none =>
          match saveBudgetNew budgets
              { id := newId, category := req.category, allocated := req.allocated,
                spent := 0, startDate := req.startDate, endDate := req.endDate,
                status := req.status.getD .active, branch := bid, isActive := true } with
          | .error e => .error e
          | .ok budgets2 =>
            .ok (budgets2.map (fun e =>
              if e.id == newId then Budget.recomputeSpent now txns e else e))

/-- `PUT /api/budgets/:id` (lines 263-375): superAdmin guard, active lookup,
then — only when `startDate` or `endDate` is supplied — the date and overlap
checks; apply the supplied fields, save, and refresh the document. -/
def updateBudget (ident : Identity) (bidPath : Nat) (req : UpdateBudgetReq) (now : Int)
    (txns : List Txn) (budgets : List Budget) : Except BudgetWriteError (List Budget) :=
  if ident.role != .superAdmin then .error .notSuperAdmin else
  match findActiveBudget budgets bidPath with
  | none => .error .notFound
  | some budget =>
    let start := req.startDate.getD budget.startDate
    let finish := req.endDate.getD budget.endDate
    let apply2 : Except BudgetWriteError (List Budget) :=
      match saveBudgetUpdate budgets
          { budget with
              category := req.category.getD budget.category,
              allocated := req.allocated.getD budget.allocated,
              startDate := req.startDate.getD budget.startDate,
              endDate := req.endDate.getD budget.endDate,
              status := req.status.getD budget.status } with
      | .error e => .error e
      | .ok budgets2 =>
        .ok (budgets2.map (fun e =>
          if e.id == budget.id then Budget.recomputeSpent now txns e else e))
    if req.startDate.isSome || req.endDate.isSome then
      if finish ≤ start then .error .invalidDateRange
      else
        match findOverlappingBudget budgets budget.branch (req.category.getD budget.category)
            (some budget.id) start finish with
        | some _ => .error .overlap
        | none => apply2
    else apply2

/-- C4 counterexample: two active budgets of branch 5 — category "X" over
[0, 30] and category "Y" over [10, 40]. Updating the second to category "X"
without supplying dates creates an overlap in (branch 5, "X") under the
claim's own intersection test (0 ≤ 40 and 10 ≤ 30), yet the update is
accepted, because the handler runs its overlap check only when `startDate`
or `endDate` is supplied. -/
theorem budget_update_overlap_not_checked_cex :
    ((0 : Int) ≤ 40 ∧ (10 : Int) ≤ 30) ∧
    updateBudget ⟨.superAdmin, none⟩ 2 ⟨some "X".data, none, none, none, none⟩ 0 []
        [⟨1, "X".data, 100, 0, 0, 30, .active, 5, true⟩,
         ⟨2, "Y".data, 100, 0, 10, 40, .active, 5, true⟩]
      = .ok [⟨1, "X".data, 100, 0, 0, 30, .active, 5, true⟩,
             ⟨2, "X".data, 100, 0, 10, 40, .active, 5, true⟩] :=
  ⟨⟨by decide, by decide⟩, by rfl⟩

/-- C4 as amended: creation rejects exactly when an active same-branch,
same-category budget overlaps the proposed range; an update rejects on such
an overlap (excluding itself, against the requested category) whenever
`startDate` or `endDate` is supplied; an update supplying neither date never
performs the overlap check, so it can only fail for other reasons. -/
theorem budget_overlap_guard_amended :
    (∀ (ident : Identity) (req : CreateBudgetReq) (newId : Nat) (now : Int)
        (txns : List Txn) (branches : List Branch) (budgets : List Budget)
        (bid : Nat) (br : Branch),
      ident.role = .superAdmin → req.branch = some bid →
      findBranch branches bid = some br → br.isActive = true →
      req.startDate < req.endDate →
      ((∃ e, findOverlappingBudget budgets bid req.category none
          req.startDate req.endDate = some e) →
        createBudget ident req newId now txns branches budgets = .error .overlap) ∧
      (findOverlappingBudget budgets bid req.category none
          req.startDate req.endDate = none →
        ∃ bs, createBudget ident req newId now txns branches budgets = .ok bs)) ∧
    (∀ (ident : Identity) (bidPath : Nat) (req : UpdateBudgetReq) (now : Int)
        (txns : List Txn) (budgets : List Budget) (budget : Budget) (e : Budget),
      ident.role = .superAdmin →
      findActiveBudget budgets bidPath = some budget →
      (req.startDate.isSome ∨ req.endDate.isSome) →
      req.startDate.getD budget.startDate < req.endDate.getD budget.endDate →
      findOverlappingBudget budgets budget.branch (req.category.getD budget.category)
          (some budget.id) (req.startDate.getD budget.startDate)
          (req.endDate.getD budget.endDate) = some e →
      updateBudget ident bidPath req now txns budgets = .error .overlap) ∧
    (∀ (ident : Identity) (bidPath : Nat) (req : UpdateBudgetReq) (now : Int)
        (txns : List Txn) (budgets : List Budget),
      req.startDate = none → req.endDate = none →
      updateBudget ident bidPath req now txns budgets ≠ .error .overlap) := by
  refine ⟨?_, ?_, ?_⟩
  · intro ident req newId now txns branches budgets bid br hrole hb hf hact hlt
    have hne : ¬ req.endDate ≤ req.startDate := by omega
    constructor
    · rintro ⟨e, he⟩
      unfold createBudget
      simp [hrole, hb, hf, hact, hne, he]
    · intro hnone
      have hnodup : (budgets.any (fun e =>
          e.isActive && e.branch == bid && e.category == req.category &&
          e.startDate == req.startDate && e.endDate == req.endDate)) = false := by
        rw [Bool.eq_false_iff]
        intro hany
        rw [List.any_eq_true] at hany
        obtain ⟨e, he, hprop⟩ := hany
        have hall := List.find?_eq_none.mp hnone e he
        simp only [Bool.and_eq_true, beq_iff_eq] at hprop
        obtain ⟨⟨⟨⟨hea, heb⟩, hec⟩, hes⟩, hee⟩ := hprop
        apply hall
        simp [heb, hec, hea, budgetOverlapTest, hes, hee]
      have hres : createBudget ident req newId now txns branches budgets
          = .ok ((budgets ++
              [({ id := newId, category := req.category, allocated := req.allocated,
                  spent := 0, startDate := req.startDate, endDate := req.endDate,
                  status := req.status.getD .active, branch := bid,
                  isActive := true } : Budget)]).map (fun e =>
                if e.id == newId then Budget.recomputeSpent now txns e else e)) := by
        unfold createBudget saveBudgetNew
        simp [hrole, hb, hf, hact, hne, hnone, hnodup]
      exact ⟨_, hres⟩
  · intro ident bidPath req now txns budgets budget e hrole hf hsome hlt hov
    have hb : (req.startDate.isSome || req.endDate.isSome) = true := by
      rcases hsome with h | h <;> simp [h]
    have hne : ¬ (req.endDate.getD budget.endDate ≤ req.startDate.getD budget.startDate) := by
      omega
    unfold updateBudget
    rw [hf]
    simp [hrole, hb, hne, hov]
  · intro ident bidPath req now txns budgets hs he
    have hsave : ∀ (bs : List Budget) (nb : Budget),
        saveBudgetUpdate bs nb ≠ .error .overlap := by
      intro bs nb
      unfold saveBudgetUpdate
      split
      · simp
      · split
        · simp
        · simp
    unfold updateBudget
    split
    · simp
    · split
      · simp
      · rw [hs, he]
        simp only [Option.isSome_none, Bool.or_self, Bool.false_eq_true, if_false]
        split
        · intro hcontra
          rename_i heq
          exact hsave _ _ (heq.trans (by rw [hcontra]))
        · simp

/-- Witness for the amended C4: a creation overlapping an existing "X" budget
is rejected; a non-overlapping one is accepted; an update that moves a budget
onto an existing one's range is rejected. -/
theorem budget_overlap_guard_amended_witness :
    (findOverlappingBudget [⟨1, "X".data, 100, 0, 0, 30, .active, 5, true⟩] 5 "X".data
        none 20 50 = some ⟨1, "X".data, 100, 0, 0, 30, .active, 5, true⟩ ∧
      createBudget ⟨.superAdmin, none⟩ ⟨"X".data, 100, 20, 50, none, some 5⟩ 2 0 []
        [⟨5, true⟩] [⟨1, "X".data, 100, 0, 0, 30, .active, 5, true⟩]
        = .error .overlap) ∧
    (∃ bs, createBudget ⟨.superAdmin, none⟩ ⟨"X".data, 100, 40, 50, none, some 5⟩ 2 0 []
        [⟨5, true⟩] [⟨1, "X".data, 100, 0, 0, 30, .active, 5, true⟩] = .ok bs) ∧
    updateBudget ⟨.superAdmin, none⟩ 2 ⟨none, none, some 15, some 35, none⟩ 0 []
        [⟨1, "X".data, 100, 0, 0, 30, .active, 5, true⟩,
         ⟨2, "X".data, 100, 0, 50, 60, .active, 5, true⟩]
      = .error .overlap := by
  refine ⟨⟨by rfl, ?_⟩, ?_, ?_⟩
  · exact (budget_overlap_guard_amended.1 ⟨.superAdmin, none⟩
      ⟨"X".data, 100, 20, 50, none, some 5⟩ 2 0 [] [⟨5, true⟩]
      [⟨1, "X".data, 100, 0, 0, 30, .active, 5, true⟩] 5 ⟨5, true⟩
      rfl rfl rfl rfl (by decide)).1
        ⟨⟨1, "X".data, 100, 0, 0, 30, .active, 5, true⟩, by rfl⟩
  · exact (budget_overlap_guard_amended.1 ⟨.superAdmin, none⟩
      ⟨"X".data, 100, 40, 50, none, some 5⟩ 2 0 [] [⟨5, true⟩]
      [⟨1, "X".data, 100, 0, 0, 30, .active, 5, true⟩] 5 ⟨5, true⟩
      rfl rfl rfl rfl (by decide)).2 (by rfl)
  · exact budget_overlap_guard_amended.2.1 ⟨.superAdmin, none⟩ 2
      ⟨none, none, some 15, some 35, none⟩ 0 []
      [⟨1, "X".data, 100, 0, 0, 30, .active, 5, true⟩,
       ⟨2, "X".data, 100, 0, 50, 60, .active, 5, true⟩]
      ⟨2, "X".data, 100, 0, 50, 60, .active, 5, true⟩
      ⟨1, "X".data, 100, 0, 0, 30, .active, 5, true⟩
      rfl (by rfl) (by simp) (by decide) (by rfl)

/-! ## Attendance (src/models/Attendance.js and src/unnamed/part_002) -/

/-- Attendance `status` field. -/
inductive AttStatus
  | present
  | absent
  | late
  | excused
deriving DecidableEq, Repr

/-- Attendance document, with the fields the verified operations read. -/
structure AttRecord where
  id : Nat
  student : Nat
  course : Nat
  branch : Nat
  date : Int
  status : AttStatus
  timeIn : Option (List Char)
  notes : Option (List Char)
  markedBy : Nat
  lastModifiedBy : Option Nat
  isActive : Bool
deriving DecidableEq, Repr

/-- `attendanceSchema.pre('save')` (src/models/Attendance.js lines 92-108):
populate `timeIn` with the current time for Present/Late records that have
none, force-clear it for Absent/Excused records. -/
def attendancePreSave (now : List Char) (r : AttRecord) : AttRecord :=
  let r1 := if (r.status == .present || r.status == .late) && r.timeIn == none then
      { r with timeIn := some now }
    else r
  if r1.status == .absent || r1.status == .excused then { r1 with timeIn := none } else r1

/-- `Attendance.findOne({student, course, date})` — no `isActive` filter. -/
def findAttendance : List AttRecord → Nat → Nat → Int → Option AttRecord
  | [], _, _, _ => none
  | r :: rs, s, c, d =>
    if r.student == s && r.course == c && r.date == d then some r
    else findAttendance rs s c d

/-- `Attendance.findById`. -/
def findAttendanceById : List AttRecord → Nat → Option AttRecord
  | [], _ => none
  | r :: rs, i => if r.id == i then some r else findAttendanceById rs i

/-- Body of `POST /api/attendance` after its shape validation. -/
structure MarkAttendanceReq where
  student : Nat
  course : Nat
  date : Int
  status : AttStatus
  timeIn : Option (List Char)
  notes : Option (List Char)
deriving DecidableEq, Repr

/-- `POST /api/attendance` (src/unnamed/part_002 lines 184-279), the write
part after the access checks: update the matching record (overwriting
status/timeIn/notes and stamping `lastModifiedBy`) or insert a fresh one;
either way the document is persisted through `save()` and hence through the
pre-save hook. `nextId` stands for the generated `_id` of an insert. -/
def markAttendance (now : List Char) (userId : Nat) (branch : Nat) (nextId : Nat)
    (req : MarkAttendanceReq) (recs : List AttRecord) : List AttRecord :=
  match findAttendance recs req.student req.course req.date with
  | some a =>
    recs.map (fun r =>
      if r.id == a.id then
        attendancePreSave now
          { a with status := req.status, timeIn := req.timeIn, notes := req.notes,
                   lastModifiedBy := some userId }
      else r)
  | none =>
    recs ++ [attendancePreSave now
      { id := nextId, student := req.student, course := req.course, branch := branch,
        date := req.date, status := req.status, timeIn := req.timeIn, notes := req.notes,
        markedBy := userId, lastModifiedBy := none, isActive := true }]

/-- Body of `PUT /api/attendance/:id`: each field present only when supplied;
`timeIn` distinguishes "absent from the body" (`none`) from "supplied,
possibly null" (`some v`), matching the handler's `!== undefined` test. -/
structure EditAttendanceReq where
  status : Option AttStatus
  timeIn : Option (Option (List Char))
  notes : Option (List Char)
deriving DecidableEq, Repr

/-- `attendanceSchema.methods.canModify` (src/models/Attendance.js lines
237-248). -/
def AttRecord.canModify (role : Role) (userBranch : Nat) (a : AttRecord) : Bool :=
  role == .superAdmin ||
    ((role == .admin || role == .moderator) && a.branch == userBranch)

/-- `PUT /api/attendance/:id` (src/unnamed/part_002 lines 342-392): look up
the active record, check `canModify`, apply the supplied fields, stamp
`lastModifiedBy`, persist through `save()` and hence the pre-save hook. -/
def editAttendance (now : List Char) (role : Role) (userBranch userId : Nat)
    (attId : Nat) (req : EditAttendanceReq) (recs : List AttRecord) :
    Except Unit (List AttRecord) :=
  match findAttendanceById recs attId with
  | none => .error ()
  | some a =>
    if !a.isActive then .error ()
    else if !a.canModify role userBranch then .error ()
    else
      .ok (recs.map (fun r =>
        if r.id == a.id then
          attendancePreSave now
            { a with
                status := req.status.getD a.status,
                timeIn := match req.timeIn with
                  | some v => v
                  | none => a.timeIn,
                notes := match req.notes with
                  | some v => some v
                  | none => a.notes,
                lastModifiedBy := some userId }
        else r))

/-- One element of the `POST /api/attendance/bulk` body after validation. -/
structure BulkAttRecord where
  student : Nat
  course : Nat
  date : Int
  status : AttStatus
  timeIn : Option (List Char)
  notes : Option (List Char)
deriving DecidableEq, Repr

/-- One `updateOne ... upsert` of `bulkUpsertAttendance`
(src/models/Attendance.js lines 207-235). `bulkWrite` does not run document
middleware, so the pre-save hook is bypassed: `$set` stores the supplied
`status`/`timeIn`/`notes`/`branch`/`lastModifiedBy` as given (an undefined
`timeIn` is stripped from the update, leaving the stored value untouched),
and `$setOnInsert` stamps `markedBy` on insert. -/
def bulkUpsertOne (markedBy : Nat) (branch : Nat) (nextId : Nat)
    (r : BulkAttRecord) (recs : List AttRecord) : List AttRecord :=
  match findAttendance recs r.student r.course r.date with
  | some a =>
    recs.map (fun x =>
      if x.id == a.id then
        { a with
            status := r.status,
            timeIn := match r.timeIn with
              | some v => some v
              | none => a.timeIn,
            notes := match r.notes with
              | some v => some v
              | none => a.notes,
            branch := branch,
            lastModifiedBy := some markedBy }
      else x)
  | none =>
    recs ++ [{ id := nextId, student := r.student, course := r.course, branch := branch,
               date := r.date, status := r.status, timeIn := r.timeIn, notes := r.notes,
               markedBy := markedBy, lastModifiedBy := some markedBy, isActive := true }]

/-- C6 counterexample: a bulk upsert of an Absent record that supplies
`timeIn = "09:00"` stores that `timeIn` instead of clearing it, because
`bulkWrite` bypasses the pre-save hook; the claim requires Absent records to
end with no `timeIn` regardless of what was supplied. -/
theorem attendance_bulk_timeIn_not_cleared_cex :
    bulkUpsertOne 9 4 100 ⟨1, 2, 0, .absent, some "09:00".data, none⟩ []
      = [⟨100, 1, 2, 4, 0, .absent, some "09:00".data, none, 9, some 9, true⟩] ∧
    some "09:00".data ≠ (none : Option (List Char)) :=
  ⟨by rfl, by simp⟩

/-- C6 as amended: the single-mark and edit paths persist through the
pre-save hook, so after them an Absent/Excused record has no `timeIn` and a
Present/Late record either keeps a supplied `timeIn` or gets the current
time when it would otherwise have none; the bulk upsert path bypasses the
hook and stores the supplied `timeIn` unchanged (keeping the stored one when
none is supplied). -/
theorem attendance_timeIn_policy_amended :
    (∀ (now : List Char) (r : AttRecord),
      ((r.status = .absent ∨ r.status = .excused) →
        (attendancePreSave now r).timeIn = none) ∧
      ((r.status = .present ∨ r.status = .late) →
        (attendancePreSave now r).timeIn = some (r.timeIn.getD now))) ∧
    (∀ (now : List Char) (userId branch nextId : Nat) (req : MarkAttendanceReq)
        (recs : List AttRecord),
      findAttendance recs req.student req.course req.date = none →
      ∃ w, markAttendance now userId branch nextId req recs = recs ++ [w] ∧
        ((req.status = .absent ∨ req.status = .excused) → w.timeIn = none) ∧
        ((req.status = .present ∨ req.status = .late) →
          w.timeIn = some (req.timeIn.getD now))) ∧
    (∀ (now : List Char) (userId branch nextId : Nat) (req : MarkAttendanceReq)
        (recs : List AttRecord) (a : AttRecord),
      findAttendance recs req.student req.course req.date = some a →
      ∃ w, markAttendance now userId branch nextId req recs
          = recs.map (fun r => if r.id == a.id then w else r) ∧
        ((req.status = .absent ∨ req.status = .excused) → w.timeIn = none) ∧
        ((req.status = .present ∨ req.status = .late) →
          w.timeIn = some (req.timeIn.getD now))) ∧
    (∀ (now : List Char) (role : Role) (userBranch userId attId : Nat)
        (req : EditAttendanceReq) (recs : List AttRecord) (a : AttRecord),
      findAttendanceById recs attId = some a → a.isActive = true →
      a.canModify role userBranch = true →
      ∃ w, editAttendance now role userBranch userId attId req recs
          = .ok (recs.map (fun r => if r.id == a.id then w else r)) ∧
        ((req.status.getD a.status = .absent ∨ req.status.getD a.status = .excused) →
          w.timeIn = none) ∧
        ((req.status.getD a.status = .present ∨ req.status.getD a.status = .late) →
          w.timeIn = some ((match req.timeIn with
            | some v => v
            | none => a.timeIn).getD now))) ∧
    (∀ (markedBy branch nextId : Nat) (r : BulkAttRecord) (recs : List AttRecord),
      findAttendance recs r.student r.course r.date = none →
      ∃ w, bulkUpsertOne markedBy branch nextId r recs = recs ++ [w] ∧
        w.status = r.status ∧ w.timeIn = r.timeIn) ∧
    (∀ (markedBy branch nextId : Nat) (r : BulkAttRecord) (recs : List AttRecord)
        (a : AttRecord),
      findAttendance recs r.student r.course r.date = some a →
      ∃ w, bulkUpsertOne markedBy branch nextId r recs
          = recs.map (fun x => if x.id == a.id then w else x) ∧
        w.status = r.status ∧
        w.timeIn = (match r.timeIn with
          | some v => some v
          | none => a.timeIn)) := by
  have hpre : ∀ (now : List Char) (r : AttRecord),
      ((r.status = .absent ∨ r.status = .excused) →
        (attendancePreSave now r).timeIn = none) ∧
      ((r.status = .present ∨ r.status = .late) →
        (attendancePreSave now r).timeIn = some (r.timeIn.getD now)) := by
    intro now r
    constructor
    · intro h
      rcases h with h | h <;> simp [attendancePreSave, h]
    · intro h
      rcases h with h | h <;> cases ht : r.timeIn <;>
        simp [attendancePreSave, h, ht]
  refine ⟨hpre, ?_, ?_, ?_, ?_, ?_⟩
  · intro now userId branch nextId req recs hnone
    refine ⟨attendancePreSave now
      { id := nextId, student := req.student, course := req.course, branch := branch,
        date := req.date, status := req.status, timeIn := req.timeIn, notes := req.notes,
        markedBy := userId, lastModifiedBy := none, isActive := true }, ?_, ?_, ?_⟩
    · unfold markAttendance
      rw [hnone]
    · intro h
      exact (hpre now _).1 h
    · intro h
      exact (hpre now _).2 h
  · intro now userId branch nextId req recs a hfind
    refine ⟨attendancePreSave now
      { a with status := req.status, timeIn := req.timeIn, notes := req.notes,
               lastModifiedBy := some userId }, ?_, ?_, ?_⟩
    · unfold markAttendance
      rw [hfind]
    · intro h
      exact (hpre now _).1 h
    · intro h
      exact (hpre now _).2 h
  · intro now role userBranch userId attId req recs a hfind hact hmod
    refine ⟨attendancePreSave now
      { a with
          status := req.status.getD a.status,
          timeIn := match req.timeIn with
            | some v => v
            | none => a.timeIn,
          notes := match req.notes with
            | some v => some v
            | none => a.notes,
          lastModifiedBy := some userId }, ?_, ?_, ?_⟩
    · unfold editAttendance
      rw [hfind]
      simp [hact, hmod]
    · intro h
      exact (hpre now _).1 h
    · intro h
      exact (hpre now _).2 h
  · intro markedBy branch nextId r recs hnone
    refine ⟨{ id := nextId, student := r.student, course := r.course, branch := branch,
              date := r.date, status := r.status, timeIn := r.timeIn, notes := r.notes,
              markedBy := markedBy, lastModifiedBy := some markedBy,
              isActive := true }, ?_, rfl, rfl⟩
    unfold bulkUpsertOne
    rw [hnone]
  · intro markedBy branch nextId r recs a hfind
    refine ⟨{ a with
        status := r.status,
        timeIn := match r.timeIn with
          | some v => some v
          | none => a.timeIn,
        notes := match r.notes with
          | some v => some v
          | none => a.notes,
        branch := branch,
        lastModifiedBy := some markedBy }, ?_, rfl, rfl⟩
    unfold bulkUpsertOne
    rw [hfind]

/-- Witness for the amended C6: a single mark of a Present record without
`timeIn` stores the current time; an edit to Absent clears a stored time; a
bulk upsert of a Present record without `timeIn` leaves it empty. -/
theorem attendance_timeIn_policy_amended_witness :
    (∃ w, markAttendance "08:15".data 9 4 100 ⟨1, 2, 0, .present, none, none⟩ []
        = [] ++ [w] ∧
      ((AttStatus.present = .absent ∨ AttStatus.present = .excused) → w.timeIn = none) ∧
      ((AttStatus.present = .present ∨ AttStatus.present = .late) →
        w.timeIn = some ((none : Option (List Char)).getD "08:15".data))) ∧
    (∃ w, editAttendance "08:15".data .admin 4 9 100
        ⟨some .absent, none, none⟩
        [⟨100, 1, 2, 4, 0, .present, some "08:00".data, none, 9, none, true⟩]
        = .ok ([⟨100, 1, 2, 4, 0, .present, some "08:00".data, none, 9, none, true⟩].map
            (fun r => if r.id == 100 then w else r)) ∧
      (((some AttStatus.absent).getD .present = .absent ∨
        (some AttStatus.absent).getD .present = .excused) → w.timeIn = none) ∧
      (((some AttStatus.absent).getD .present = .present ∨
        (some AttStatus.absent).getD .present = .late) →
        w.timeIn = some ((some "08:00".data).getD "08:15".data))) ∧
    (∃ w, bulkUpsertOne 9 4 100 ⟨1, 2, 0, .present, none, none⟩ [] = [] ++ [w] ∧
      w.status = .present ∧ w.timeIn = none) := by
  refine ⟨?_, ?_, ?_⟩
  · exact attendance_timeIn_policy_amended.2.1 "08:15".data 9 4 100
      ⟨1, 2, 0, .present, none, none⟩ [] (by rfl)
  · have h := attendance_timeIn_policy_amended.2.2.2.1 "08:15".data .admin 4 9 100
      ⟨some .absent, none, none⟩
      [⟨100, 1, 2, 4, 0, .present, some "08:00".data, none, 9, none, true⟩]
      ⟨100, 1, 2, 4, 0, .present, some "08:00".data, none, 9, none, true⟩
      (by rfl) (by rfl) (by rfl)
    exact h
  · exact attendance_timeIn_policy_amended.2.2.2.2.1 9 4 100
      ⟨1, 2, 0, .present, none, none⟩ [] (by rfl)

/-! ## Login (src/routes/auth.js, `router.post('/login')`) -/

/-- User document as the login handler reads it. The stored password stands
for the bcrypt hash; `comparePassword` is modelled as equality, password
hashing being an excluded external collaborator. -/
structure LoginUser where
  id : Nat
  username : List Char
  password : List Char
  role : Role
  branch : Option Nat
  isActive : Bool
deriving DecidableEq, Repr

/-- Outcome of `POST /api/auth/login`, one constructor per distinct response. -/
inductive LoginResult
  | success (userId : Nat) (role : Role) (effectiveBranch : Option Nat)
  | invalidCredentials
  | userBranchInactive
  | branchSelectionRequired
  | branchAccessDenied
  | invalidBranch
deriving DecidableEq, Repr

/-- `User.findOne({username: username.toLowerCase(), isActive: true})`. -/
def findUserByUsername : List LoginUser → List Char → Option LoginUser
  | [], _ => none
  | u :: us, uname =>
    if u.username == uname.map Char.toLower && u.isActive then some u
    else findUserByUsername us uname

/-- `POST /api/auth/login` (src/routes/auth.js lines 13-104): credential
check, then for a superAdmin an optional active-branch selection that becomes
the session's effective branch, and for everyone else the
assigned-branch-inactive check followed by the mandatory, matching branch
selection. -/
def login (users : List LoginUser) (branches : List Branch)
    (uname pwd : List Char) (branchId : Option Nat) : LoginResult :=
  match findUserByUsername users uname with
  | none => .invalidCredentials
  | some user =>
    if user.password != pwd then .invalidCredentials
    else if user.role == .superAdmin then
      match branchId with
      | none => .success user.id user.role none
      | some bid =>
        match findBranch branches bid with
        | none => .invalidBranch
        | some br =>
          if !br.isActive then .invalidBranch
          else .success user.id user.role (some br.id)
    else
      match user.branch.bind (findBranch branches) with
      | none => .userBranchInactive
      | some br =>
        if !br.isActive then .userBranchInactive
        else
          match branchId with
          | none => .branchSelectionRequired
          | some bid =>
            if br.id != bid then .branchAccessDenied
            else .success user.id user.role (some br.id)

/-- C7 counterexample: a non-superAdmin user with valid credentials whose
assigned branch (id 3) is inactive and who supplies no `branchId` fails with
the "User branch is inactive" response, not the "Branch selection is
required" one the claim requires — the inactive-branch check runs first. -/
theorem login_inactive_branch_before_selection_cex :
    login [⟨1, "amal".data, "pw".data, .staff, some 3, true⟩] [⟨3, false⟩]
        "amal".data "pw".data none = .userBranchInactive ∧
    LoginResult.userBranchInactive ≠ .branchSelectionRequired :=
  ⟨by rfl, by simp⟩

/-- C7 as amended: for a non-superAdmin user with valid credentials whose
assigned branch exists and is active, no `branchId` fails with the
branch-selection-required error, a `branchId` other than the assigned branch
fails with the branch-access-denied error, and exactly the assigned branch
succeeds; when the assigned branch is missing or inactive the attempt fails
with the user-branch-inactive error regardless of `branchId`. For a
superAdmin, `branchId` is optional and, when present, must name an active
branch, which becomes the session's effective branch. -/
theorem login_branch_rules_amended :
    (∀ (users : List LoginUser) (branches : List Branch) (uname pwd : List Char)
        (user : LoginUser) (ub : Nat) (br : Branch),
      findUserByUsername users uname = some user → user.password = pwd →
      user.role ≠ .superAdmin → user.branch = some ub →
      findBranch branches ub = some br → br.isActive = true →
      login users branches uname pwd none = .branchSelectionRequired ∧
      (∀ bid, bid ≠ br.id →
        login users branches uname pwd (some bid) = .branchAccessDenied) ∧
      login users branches uname pwd (some br.id)
        = .success user.id user.role (some br.id)) ∧
    (∀ (users : List LoginUser) (branches : List Branch) (uname pwd : List Char)
        (user : LoginUser) (branchId : Option Nat),
      findUserByUsername users uname = some user → user.password = pwd →
      user.role ≠ .superAdmin →
      (match user.branch with
       | none => True
       | some ub => ∀ br, findBranch branches ub = some br → br.isActive = false) →
      login users branches uname pwd branchId = .userBranchInactive) ∧
    (∀ (users : List LoginUser) (branches : List Branch) (uname pwd : List Char)
        (user : LoginUser),
      findUserByUsername users uname = some user → user.password = pwd →
      user.role = .superAdmin →
      login users branches uname pwd none = .success user.id user.role none ∧
      (∀ bid br, findBranch branches bid = some br → br.isActive = true →
        login users branches uname pwd (some bid)
          = .success user.id user.role (some br.id)) ∧
      (∀ bid, findBranch branches bid = none →
        login users branches uname pwd (some bid) = .invalidBranch) ∧
      (∀ bid br, findBranch branches bid = some br → br.isActive = false →
        login users branches uname pwd (some bid) = .invalidBranch)) := by
  refine ⟨?_, ?_, ?_⟩
  · intro users branches uname pwd user ub br hfind hpwd hrole hub hbr hact
    have hrb : (user.role == Role.superAdmin) = false := by
      simpa using hrole
    refine ⟨?_, ?_, ?_⟩
    · unfold login
      rw [hfind]
      simp [hpwd, hrb, hub, hbr, hact]
    · intro bid hne
      unfold login
      rw [hfind]
      simp [hpwd, hrb, hub, hbr, hact]
      intro h
      exact absurd h.symm hne
    · unfold login
      rw [hfind]
      simp [hpwd, hrb, hub, hbr, hact]
  · intro users branches uname pwd user branchId hfind hpwd hrole hbad
    have hrb : (user.role == Role.superAdmin) = false := by
      simpa using hrole
    unfold login
    rw [hfind]
    rcases hub : user.branch with _ | ub
    · simp [hpwd, hrb, hub]
    · rw [hub] at hbad
      rcases hbr : findBranch branches ub with _ | br
      · simp [hpwd, hrb, hub, hbr]
      · have hact := hbad br hbr
        simp [hpwd, hrb, hub, hbr, hact]
  · intro users branches uname pwd user hfind hpwd hrole
    refine ⟨?_, ?_, ?_, ?_⟩
    · unfold login
      rw [hfind]
      simp [hpwd, hrole]
    · intro bid br hbr hact
      unfold login
      rw [hfind]
      simp [hpwd, hrole, hbr, hact]
    · intro bid hbr
      unfold login
      rw [hfind]
      simp [hpwd, hrole, hbr]
    · intro bid br hbr hact
      unfold login
      rw [hfind]
      simp [hpwd, hrole, hbr, hact]

/-- Witness for the amended C7: one staff user assigned to active branch 3
and one superAdmin, exercising every clause at concrete inputs. -/
theorem login_branch_rules_amended_witness :
    (login [⟨1, "amal".data, "pw".data, .staff, some 3, true⟩] [⟨3, true⟩]
        "amal".data "pw".data none = .branchSelectionRequired ∧
     login [⟨1, "amal".data, "pw".data, .staff, some 3, true⟩] [⟨3, true⟩]
        "amal".data "pw".data (some 4) = .branchAccessDenied ∧
     login [⟨1, "amal".data, "pw".data, .staff, some 3, true⟩] [⟨3, true⟩]
        "amal".data "pw".data (some 3) = .success 1 .staff (some 3)) ∧
    login [⟨1, "amal".data, "pw".data, .staff, some 3, true⟩] [⟨3, false⟩]
        "amal".data "pw".data (some 3) = .userBranchInactive ∧
    (login [⟨2, "root".data, "pw".data, .superAdmin, none, true⟩] [⟨3, true⟩]
        "root".data "pw".data none = .success 2 .superAdmin none ∧
     login [⟨2, "root".data, "pw".data, .superAdmin, none, true⟩] [⟨3, true⟩]
        "root".data "pw".data (some 3) = .success 2 .superAdmin (some 3) ∧
     login [⟨2, "root".data, "pw".data, .superAdmin, none, true⟩] [⟨3, true⟩]
        "root".data "pw".data (some 9) = .invalidBranch) := by
  have h1 := login_branch_rules_amended.1
    [⟨1, "amal".data, "pw".data, .staff, some 3, true⟩] [⟨3, true⟩]
    "amal".data "pw".data ⟨1, "amal".data, "pw".data, .staff, some 3, true⟩ 3 ⟨3, true⟩
    (by rfl) (by rfl) (by decide) (by rfl) (by rfl) (by rfl)
  have h2 := login_branch_rules_amended.2.1
    [⟨1, "amal".data, "pw".data, .staff, some 3, true⟩] [⟨3, false⟩]
    "amal".data "pw".data ⟨1, "amal".data, "pw".data, .staff, some 3, true⟩ (some 3)
    (by rfl) (by rfl) (by decide)
    (by
      intro br hbr
      cases Option.some.inj hbr
      rfl)
  have h3 := login_branch_rules_amended.2.2
    [⟨2, "root".data, "pw".data, .superAdmin, none, true⟩] [⟨3, true⟩]
    "root".data "pw".data ⟨2, "root".data, "pw".data, .superAdmin, none, true⟩
    (by rfl) (by rfl) (by rfl)
  exact ⟨⟨h1.1, h1.2.1 4 (by decide), h1.2.2⟩, h2,
    h3.1, h3.2.1 3 ⟨3, true⟩ (by rfl) (by rfl), h3.2.2.1 9 (by rfl)⟩

/-! ## List scoping (src/routes/students.js lines 12-77, src/routes/courses.js
lines 18-97, src/models/Attendance.js `getFilteredAttendance`) -/

/-- The final student-list query of `GET /api/students`: `isActive`, the
optional text/status/course clauses (abstracted as `extra`, they are
conjunctive with the rest), and the branch clause — superAdmin may narrow to
one branch, everyone else is pinned to their own. -/
def studentsListQuery (role : Role) (userBranch : Nat) (branchIdFilter : Option Nat)
    (extra : Student → Bool) (s : Student) : Bool :=
  s.isActive && extra s &&
    (if role == .superAdmin then
      match branchIdFilter with
      | some b => s.branch == b
      | none => true
    else s.branch == userBranch)

/-- The final course-list query of `GET /api/courses`. For a non-superAdmin
the handler assigns the branch `$or` to the same key as the text-search
`$or`, overwriting it, so only the status clause and the branch disjunction
remain; the branch disjunction admits the caller's branch and the literal
`'all'`. -/
def coursesListQuery (role : Role) (userBranch : Nat) (branchIdFilter : Option Nat)
    (searchClause : Option (Course → Bool)) (statusClause : Course → Bool)
    (c : Course) : Bool :=
  if role == .superAdmin then
    c.isActive &&
      (match searchClause with
       | some p => p c
       | none => true) &&
      statusClause c &&
      (match branchIdFilter with
       | some b => c.branch == CourseBranch.specific b
       | none => true)
  else
    c.isActive && statusClause c &&
      (c.branch == CourseBranch.specific userBranch || c.branch == CourseBranch.all)

/-- The match query of `Attendance.getFilteredAttendance`: `isActive`, the
course/student/status/date clauses (abstracted as `extra`), and the branch
clause — superAdmin may narrow to one branch, everyone else is pinned to
their own. -/
def attendanceListQuery (role : Role) (userBranch : Nat) (branchIdFilter : Option Nat)
    (extra : AttRecord → Bool) (a : AttRecord) : Bool :=
  a.isActive && extra a &&
    (if role == .superAdmin then
      match branchIdFilter with
      | some b => a.branch == b
      | none => true
    else a.branch == userBranch)

/-- C8: for a non-superAdmin identity, every record admitted by the
student, course, or attendance list query belongs to the identity's branch,
except courses whose branch is the literal `'all'`; scoping is the filter
itself, so out-of-scope records are merely excluded. -/
theorem list_scope_branch_invariant :
    (∀ (role : Role) (ub : Nat) (bf : Option Nat) (extra : Student → Bool) (s : Student),
      role ≠ .superAdmin → studentsListQuery role ub bf extra s = true →
      s.branch = ub) ∧
    (∀ (role : Role) (ub : Nat) (bf : Option Nat) (sc : Option (Course → Bool))
        (st : Course → Bool) (c : Course),
      role ≠ .superAdmin → coursesListQuery role ub bf sc st c = true →
      c.branch = CourseBranch.specific ub ∨ c.branch = CourseBranch.all) ∧
    (∀ (role : Role) (ub : Nat) (bf : Option Nat) (extra : AttRecord → Bool)
        (a : AttRecord),
      role ≠ .superAdmin → attendanceListQuery role ub bf extra a = true →
      a.branch = ub) := by
  refine ⟨?_, ?_, ?_⟩
  · intro role ub bf extra s hrole hq
    have hrb : (role == Role.superAdmin) = false := by simpa using hrole
    unfold studentsListQuery at hq
    rw [hrb] at hq
    simp at hq
    exact hq.2
  · intro role ub bf sc st c hrole hq
    have hrb : (role == Role.superAdmin) = false := by simpa using hrole
    unfold coursesListQuery at hq
    rw [hrb] at hq
    simp at hq
    rcases hq.2 with h | h
    · exact Or.inl h
    · exact Or.inr h
  · intro role ub bf extra a hrole hq
    have hrb : (role == Role.superAdmin) = false := by simpa using hrole
    unfold attendanceListQuery at hq
    rw [hrb] at hq
    simp at hq
    exact hq.2

/-- Witness for C8 at concrete admin-scoped records of branch 4. -/
theorem list_scope_branch_invariant_witness :
    (⟨"WD0001".data, "kasun@x.lk".data, 10, 4, true⟩ : Student).branch = 4 ∧
    ((⟨10, "Web Dev".data, 5, 0, .all, true⟩ : Course).branch
        = CourseBranch.specific 4 ∨
      (⟨10, "Web Dev".data, 5, 0, .all, true⟩ : Course).branch = CourseBranch.all) ∧
    (⟨100, 1, 10, 4, 0, .present, none, none, 9, none, true⟩ : AttRecord).branch = 4 := by
  refine ⟨?_, ?_, ?_⟩
  · exact list_scope_branch_invariant.1 .admin 4 none (fun _ => true)
      ⟨"WD0001".data, "kasun@x.lk".data, 10, 4, true⟩ (by decide) (by rfl)
  · exact list_scope_branch_invariant.2.1 .moderator 4 none none (fun _ => true)
      ⟨10, "Web Dev".data, 5, 0, .all, true⟩ (by decide) (by rfl)
  · exact list_scope_branch_invariant.2.2 .staff 4 none (fun _ => true)
      ⟨100, 1, 10, 4, 0, .present, none, none, 9, none, true⟩ (by decide) (by rfl)

/-! ## String comparison and parsing, for the transaction reference
generator (src/unnamed/part_006) -/

/-- Code-point comparison of characters, as both JavaScript `<` on strings
and a MongoDB sort on a string field compare ASCII data. -/
def charLt (a b : Char) : Bool :=
  decide (a.toNat < b.toNat)

/-- Lexicographic comparison of strings by code point. -/
def strLt : List Char → List Char → Bool
  | [], [] => false
  | [], _ :: _ => true
  | _ :: _, [] => false
  | a :: as, b :: bs =>
    if charLt a b then true else if charLt b a then false else strLt as bs

/-- `findOne(query).sort({field: -1})` on a string field: the greatest
matching string. -/
def maxString : List (List Char) → Option (List Char)
  | [] => none
  | s :: ss =>
    match maxString ss with
    | none => some s
    | some m => if strLt m s then some s else some m

/-- ASCII digit test. -/
def isDigitChar (c : Char) : Bool :=
  decide ('0'.toNat ≤ c.toNat) && decide (c.toNat ≤ '9'.toNat)

/-- Numeric value of an ASCII digit character. -/
def charDigitVal (c : Char) : Nat :=
  c.toNat - 48

/-- JS `parseInt` restricted to the strings that occur here: the value of
the leading run of digits, `none` (NaN) when the string does not start with
a digit. -/
def jsParseInt (s : List Char) : Option Nat :=
  if (s.takeWhile isDigitChar).isEmpty then none
  else some ((s.takeWhile isDigitChar).foldl (fun a c => a * 10 + charDigitVal c) 0)

/-- Value of a big-endian list of decimal digits. -/
def digitsVal (l : List Nat) : Nat :=
  l.foldl (fun a d => a * 10 + d) 0

theorem foldl_digits_acc (l : List Nat) :
    ∀ a : Nat, l.foldl (fun a d => a * 10 + d) a
      = a * 10 ^ l.length + l.foldl (fun a d => a * 10 + d) 0 := by
  induction l with
  | nil => intro a; simp
  | cons x xs ih =>
    intro a
    rw [List.foldl_cons, ih (a * 10 + x), List.foldl_cons, ih (0 * 10 + x)]
    simp only [List.length_cons, pow_succ]
    ring

theorem digitsVal_cons (x : Nat) (xs : List Nat) :
    digitsVal (x :: xs) = x * 10 ^ xs.length + digitsVal xs := by
  unfold digitsVal
  rw [List.foldl_cons, foldl_digits_acc xs (0 * 10 + x)]
  simp

theorem digitsVal_lt (l : List Nat) (h : ∀ d ∈ l, d < 10) :
    digitsVal l < 10 ^ l.length := by
  induction l with
  | nil => simp [digitsVal]
  | cons x xs ih =>
    rw [digitsVal_cons]
    have hx : x < 10 := h x (List.mem_cons_self x xs)
    have hxs : digitsVal xs < 10 ^ xs.length :=
      ih (fun d hd => h d (List.mem_cons_of_mem x hd))
    calc x * 10 ^ xs.length + digitsVal xs
        < x * 10 ^ xs.length + 10 ^ xs.length := Nat.add_lt_add_left hxs _
      _ = (x + 1) * 10 ^ xs.length := by ring
      _ ≤ 10 * 10 ^ xs.length := mul_le_mul_right' (by omega) _
      _ = 10 ^ (x :: xs).length := by
          rw [List.length_cons, pow_succ]
          ring

theorem charLt_digitChar_fin : ∀ a b : Fin 10,
    charLt (Nat.digitChar a.val) (Nat.digitChar b.val) = decide (a.val < b.val) := by
  decide

theorem charLt_digitChar (a b : Nat) (ha : a < 10) (hb : b < 10) :
    charLt (Nat.digitChar a) (Nat.digitChar b) = decide (a < b) :=
  charLt_digitChar_fin ⟨a, ha⟩ ⟨b, hb⟩

theorem digitChar_ne_dash_fin : ∀ d : Fin 10, Nat.digitChar d.val ≠ '-' := by
  decide

theorem isDigitChar_digitChar_fin : ∀ d : Fin 10,
    isDigitChar (Nat.digitChar d.val) = true := by
  decide

theorem charDigitVal_digitChar_fin : ∀ d : Fin 10,
    charDigitVal (Nat.digitChar d.val) = d.val := by
  decide

theorem strLt_digitChars : ∀ (xs ys : List Nat), xs.length = ys.length →
    (∀ x ∈ xs, x < 10) → (∀ y ∈ ys, y < 10) →
    strLt (xs.map Nat.digitChar) (ys.map Nat.digitChar)
      = decide (digitsVal xs < digitsVal ys) := by
  intro xs
  induction xs with
  | nil =>
    intro ys hlen _ _
    cases ys with
    | nil => simp [strLt, digitsVal]
    | cons y ys => simp at hlen
  | cons x xs ih =>
    intro ys hlen hxs hys
    cases ys with
    | nil => simp at hlen
    | cons y ys =>
      have hx : x < 10 := hxs x (List.mem_cons_self x xs)
      have hy : y < 10 := hys y (List.mem_cons_self y ys)
      have hlen' : xs.length = ys.length := by simpa using hlen
      have hxs' : ∀ a ∈ xs, a < 10 := fun a ha => hxs a (List.mem_cons_of_mem x ha)
      have hys' : ∀ a ∈ ys, a < 10 := fun a ha => hys a (List.mem_cons_of_mem y ha)
      have hdx : digitsVal xs < 10 ^ ys.length := by
        rw [← hlen']
        exact digitsVal_lt xs hxs'
      have hdy : digitsVal ys < 10 ^ ys.length := digitsVal_lt ys hys'
      have key : ∀ u v du dv : Nat, u < v → du < 10 ^ ys.length →
          u * 10 ^ ys.length + du < v * 10 ^ ys.length + dv := by
        intro u v du dv huv hdu
        calc u * 10 ^ ys.length + du
            < u * 10 ^ ys.length + 10 ^ ys.length := Nat.add_lt_add_left hdu _
          _ = (u + 1) * 10 ^ ys.length := by ring
          _ ≤ v * 10 ^ ys.length := mul_le_mul_right' (by omega) _
          _ ≤ v * 10 ^ ys.length + dv := Nat.le_add_right _ _
      simp only [List.map_cons, strLt, charLt_digitChar x y hx hy,
        charLt_digitChar y x hy hx]
      rcases Nat.lt_trichotomy x y with hc | hc | hc
      · have h1 : digitsVal (x :: xs) < digitsVal (y :: ys) := by
          rw [digitsVal_cons, digitsVal_cons, hlen']
          exact key x y (digitsVal xs) (digitsVal ys) hc hdx
        simp [hc, h1, Nat.lt_asymm hc]
      · subst hc
        have h2 : (digitsVal (x :: xs) < digitsVal (x :: ys))
            ↔ (digitsVal xs < digitsVal ys) := by
          rw [digitsVal_cons, digitsVal_cons, hlen']
          omega
        have hxx : decide (x < x) = false := by simp
        rw [hxx]
        simp only [Bool.false_eq_true, if_false]
        rw [ih ys hlen' hxs' hys']
        simp [h2]
      · have h1 : ¬ (digitsVal (x :: xs) < digitsVal (y :: ys)) := by
          rw [digitsVal_cons, digitsVal_cons, hlen']
          have := key y x (digitsVal ys) (digitsVal xs) hc hdy
          omega
        simp [hc, Nat.lt_asymm hc, h1]

theorem strLt_append_left (p x y : List Char) :
    strLt (p ++ x) (p ++ y) = strLt x y := by
  induction p with
  | nil => rfl
  | cons c p ih =>
    have hcc : charLt c c = false := by simp [charLt]
    simp [strLt, hcc, ih]

theorem natToChars_digits1 (n : Nat) (h : n < 10) :
    natToChars n = [Nat.digitChar n] := by
  rw [natToChars_eq]
  simp [h]

theorem natToChars_digits2 (n : Nat) (h1 : 10 ≤ n) (h2 : n < 100) :
    natToChars n = [Nat.digitChar (n / 10), Nat.digitChar (n % 10)] := by
  rw [natToChars_eq, if_neg (by omega), natToChars_digits1 (n / 10) (by omega)]
  rfl

theorem natToChars_digits3 (n : Nat) (h1 : 100 ≤ n) (h2 : n < 1000) :
    natToChars n = [Nat.digitChar (n / 100), Nat.digitChar (n / 10 % 10),
      Nat.digitChar (n % 10)] := by
  rw [natToChars_eq, if_neg (by omega),
    natToChars_digits2 (n / 10) (by omega) (by omega)]
  have e1 : n / 10 / 10 = n / 100 := by omega
  have e2 : n / 10 % 10 = n / 10 % 10 := rfl
  rw [e1]
  rfl

theorem natToChars_digits4 (n : Nat) (h1 : 1000 ≤ n) (h2 : n ≤ 9999) :
    natToChars n = [Nat.digitChar (n / 1000), Nat.digitChar (n / 100 % 10),
      Nat.digitChar (n / 10 % 10), Nat.digitChar (n % 10)] := by
  rw [natToChars_eq, if_neg (by omega),
    natToChars_digits3 (n / 10) (by omega) (by omega)]
  have e1 : n / 10 / 100 = n / 1000 := by omega
  have e2 : n / 10 / 10 % 10 = n / 100 % 10 := by omega
  rw [e1, e2]
  rfl

theorem pad4_digits (n : Nat) (h : n ≤ 9999) :
    pad4 n = [Nat.digitChar (n / 1000), Nat.digitChar (n / 100 % 10),
      Nat.digitChar (n / 10 % 10), Nat.digitChar (n % 10)] := by
  unfold pad4 padStart
  by_cases h1 : n < 10
  · rw [natToChars_digits1 n h1]
    have e1 : n / 1000 = 0 := by omega
    have e2 : n / 100 % 10 = 0 := by omega
    have e3 : n / 10 % 10 = 0 := by omega
    have e4 : n % 10 = n := by omega
    rw [e1, e2, e3, e4]
    rfl
  · by_cases h2 : n < 100
    · rw [natToChars_digits2 n (by omega) h2]
      have e1 : n / 1000 = 0 := by omega
      have e2 : n / 100 % 10 = 0 := by omega
      have e3 : n / 10 % 10 = n / 10 := by omega
      rw [e1, e2, e3]
      rfl
    · by_cases h3 : n < 1000
      · rw [natToChars_digits3 n (by omega) h3]
        have e1 : n / 1000 = 0 := by omega
        have e2 : n / 100 % 10 = n / 100 := by omega
        rw [e1, e2]
        rfl
      · rw [natToChars_digits4 n (by omega) h]
        rfl

theorem digitsVal4 (n : Nat) (h : n ≤ 9999) :
    digitsVal [n / 1000, n / 100 % 10, n / 10 % 10, n % 10] = n := by
  unfold digitsVal
  simp only [List.foldl_cons, List.foldl_nil]
  omega

theorem strLt_pad4 (a b : Nat) (ha : a ≤ 9999) (hb : b ≤ 9999) :
    strLt (pad4 a) (pad4 b) = decide (a < b) := by
  have hma : pad4 a
      = [a / 1000, a / 100 % 10, a / 10 % 10, a % 10].map Nat.digitChar := by
    rw [pad4_digits a ha]
    rfl
  have hmb : pad4 b
      = [b / 1000, b / 100 % 10, b / 10 % 10, b % 10].map Nat.digitChar := by
    rw [pad4_digits b hb]
    rfl
  rw [hma, hmb, strLt_digitChars _ _ (by simp)
    (by
      intro x hx
      simp at hx
      rcases hx with h1 | h1 | h1 | h1 <;> omega)
    (by
      intro y hy
      simp at hy
      rcases hy with h1 | h1 | h1 | h1 <;> omega),
    digitsVal4 a ha, digitsVal4 b hb]

theorem pad4_no_dash (n : Nat) (h : n ≤ 9999) : ∀ ch ∈ pad4 n, ch ≠ '-' := by
  rw [pad4_digits n h]
  intro ch hch
  simp at hch
  rcases hch with h1 | h1 | h1 | h1 <;> subst h1
  · exact digitChar_ne_dash_fin ⟨n / 1000, by omega⟩
  · exact digitChar_ne_dash_fin ⟨n / 100 % 10, by omega⟩
  · exact digitChar_ne_dash_fin ⟨n / 10 % 10, by omega⟩
  · exact digitChar_ne_dash_fin ⟨n % 10, by omega⟩

theorem jsParseInt_pad4 (n : Nat) (h : n ≤ 9999) : jsParseInt (pad4 n) = some n := by
  rw [pad4_digits n h]
  have d0 : isDigitChar (Nat.digitChar (n / 1000)) = true :=
    isDigitChar_digitChar_fin ⟨n / 1000, by omega⟩
  have d1 : isDigitChar (Nat.digitChar (n / 100 % 10)) = true :=
    isDigitChar_digitChar_fin ⟨n / 100 % 10, by omega⟩
  have d2 : isDigitChar (Nat.digitChar (n / 10 % 10)) = true :=
    isDigitChar_digitChar_fin ⟨n / 10 % 10, by omega⟩
  have d3 : isDigitChar (Nat.digitChar (n % 10)) = true :=
    isDigitChar_digitChar_fin ⟨n % 10, by omega⟩
  have v0 : charDigitVal (Nat.digitChar (n / 1000)) = n / 1000 :=
    charDigitVal_digitChar_fin ⟨n / 1000, by omega⟩
  have v1 : charDigitVal (Nat.digitChar (n / 100 % 10)) = n / 100 % 10 :=
    charDigitVal_digitChar_fin ⟨n / 100 % 10, by omega⟩
  have v2 : charDigitVal (Nat.digitChar (n / 10 % 10)) = n / 10 % 10 :=
    charDigitVal_digitChar_fin ⟨n / 10 % 10, by omega⟩
  have v3 : charDigitVal (Nat.digitChar (n % 10)) = n % 10 :=
    charDigitVal_digitChar_fin ⟨n % 10, by omega⟩
  unfold jsParseInt
  have ht : ([Nat.digitChar (n / 1000), Nat.digitChar (n / 100 % 10),
      Nat.digitChar (n / 10 % 10), Nat.digitChar (n % 10)]).takeWhile isDigitChar
      = [Nat.digitChar (n / 1000), Nat.digitChar (n / 100 % 10),
         Nat.digitChar (n / 10 % 10), Nat.digitChar (n % 10)] := by
    simp only [List.takeWhile_cons, d0, d1, d2, d3, if_true, List.takeWhile_nil]
  rw [ht]
  simp only [List.isEmpty_cons, Bool.false_eq_true, if_false, List.foldl_cons,
    List.foldl_nil, v0, v1, v2, v3]
  congr 1
  omega

/-- `Math`-free maximum of a list of naturals, 0 on the empty list. -/
def maxNat (l : List Nat) : Nat :=
  l.foldl max 0

theorem foldl_max_acc (l : List Nat) : ∀ a, l.foldl max a = max a (l.foldl max 0) := by
  induction l with
  | nil => intro a; simp
  | cons x xs ih =>
    intro a
    rw [List.foldl_cons, ih (max a x), List.foldl_cons, ih (max 0 x)]
    omega

theorem le_maxNat (l : List Nat) (x : Nat) (h : x ∈ l) : x ≤ maxNat l := by
  induction l with
  | nil => simp at h
  | cons y ys ih =>
    unfold maxNat
    rw [List.foldl_cons, foldl_max_acc]
    rcases List.mem_cons.mp h with h1 | h1
    · subst h1
      omega
    · have := ih h1
      unfold maxNat at this
      omega

theorem maxNat_mem (l : List Nat) (h : l ≠ []) : maxNat l ∈ l := by
  induction l with
  | nil => exact absurd rfl h
  | cons x xs ih =>
    unfold maxNat
    rw [List.foldl_cons, foldl_max_acc]
    rcases hxs : xs with _ | ⟨y, ys⟩
    · simp
    · rw [← hxs]
      have hne : xs ≠ [] := by rw [hxs]; simp
      have hmem := ih hne
      unfold maxNat at hmem
      rcases Nat.le_total (max 0 x) (xs.foldl max 0) with hle | hle
      · rw [Nat.max_eq_right hle]
        exact List.mem_cons_of_mem x hmem
      · rw [Nat.max_eq_left hle]
        have : max 0 x = x := by omega
        rw [this]
        exact List.mem_cons_self x xs

theorem maxNat_cons (x : Nat) (xs : List Nat) : maxNat (x :: xs) = max x (maxNat xs) := by
  unfold maxNat
  rw [List.foldl_cons, foldl_max_acc]
  omega

theorem jsSplit_ne_nil (sep : Char) (l : List Char) : jsSplit sep l ≠ [] := by
  cases l with
  | nil => simp [jsSplit]
  | cons c rest =>
    unfold jsSplit
    by_cases h : c = sep
    · simp [h]
    · simp only [h, if_false]
      split <;> simp

theorem jsSplit_sepFree (sep : Char) (l : List Char) (h : ∀ ch ∈ l, ch ≠ sep) :
    jsSplit sep l = [l] := by
  induction l with
  | nil => rfl
  | cons c rest ih =>
    have hc : c ≠ sep := h c (List.mem_cons_self c rest)
    have hr := ih (fun ch hch => h ch (List.mem_cons_of_mem c hch))
    unfold jsSplit
    rw [if_neg hc, hr]

theorem jsSplit_length (sep : Char) (l : List Char) :
    (jsSplit sep l).length = l.count sep + 1 := by
  induction l with
  | nil => rfl
  | cons c rest ih =>
    unfold jsSplit
    by_cases h : c = sep
    · subst h
      rw [if_pos rfl]
      simp only [List.length_cons, ih, List.count_cons, beq_self_eq_true, if_true]
    · rw [if_neg h]
      rcases hs : jsSplit sep rest with _ | ⟨g, gs⟩
      · exact absurd hs (jsSplit_ne_nil sep rest)
      · rw [hs] at ih
        simp only [List.length_cons] at ih ⊢
        rw [List.count_cons]
        have hb : (c == sep) = false := by simp [h]
        rw [hb]
        simp only [Bool.false_eq_true, if_false]
        omega

theorem jsSplit_getLast_append (sep : Char) :
    ∀ (xs c : List Char), (∀ ch ∈ c, ch ≠ sep) →
    (jsSplit sep (xs ++ sep :: c)).getLast? = some c := by
  intro xs
  induction xs with
  | nil =>
    intro c hc
    show (jsSplit sep (sep :: c)).getLast? = some c
    unfold jsSplit
    rw [if_pos rfl, jsSplit_sepFree sep c hc]
    rfl
  | cons x xs ih =>
    intro c hc
    simp only [List.cons_append]
    by_cases hx : x = sep
    · subst hx
      unfold jsSplit
      rw [if_pos rfl]
      rcases hs : jsSplit x (xs ++ x :: c) with _ | ⟨g, gs⟩
      · exact absurd hs (jsSplit_ne_nil _ _)
      · rw [List.getLast?_cons_cons, ← hs]
        exact ih c hc
    · unfold jsSplit
      rw [if_neg hx]
      rcases hs : jsSplit sep (xs ++ sep :: c) with _ | ⟨g, gs⟩
      · exact absurd hs (jsSplit_ne_nil _ _)
      · have h2 : 2 ≤ (jsSplit sep (xs ++ sep :: c)).length := by
          rw [jsSplit_length]
          have hcnt : 1 ≤ (xs ++ sep :: c).count sep := by
            rw [List.count_append, List.count_cons]
            simp
            omega
          omega
        rw [hs] at h2
        rcases gs with _ | ⟨g2, gs2⟩
        · simp at h2
        · rw [List.getLast?_cons_cons]
          have hlast := ih c hc
          rw [hs, List.getLast?_cons_cons] at hlast
          exact hlast

/-! ## Transaction reference generation (src/unnamed/part_006, the second
`pre('save')` hook, lines 121-146) -/

/-- `this.type === 'income' ? 'IN' : 'EX'`. -/
def typePrefixChars : TxType → List Char
  | .income => ['I', 'N']
  | .expense => ['E', 'X']

/-- `${year}${month}` with `month = String(getMonth() + 1).padStart(2, '0')`;
`month` here is already 1-based. -/
def ymChars (year month : Nat) : List Char :=
  natToChars year ++ padStart 2 '0' (natToChars month)

/-- The literal prefix matched by the hook's anchored regular expression:
type prefix, dash, year-month, dash. -/
def refPat (ty : TxType) (year month : Nat) : List Char :=
  typePrefixChars ty ++ '-' :: (ymChars year month ++ ['-'])

/-- A canonical reference `{TYPE}-{YYYYMM}-{String(seq).padStart(4, '0')}`. -/
def mkRef (ty : TxType) (year month seq : Nat) : List Char :=
  refPat ty year month ++ pad4 seq

/-- The references of the documents the hook's `findOne` matches: same
branch, reference starting with the month pattern. -/
def matchingRefs (txns : List Txn) (b : Nat) (pat : List Char) : List (List Char) :=
  txns.filterMap (fun t =>
    if t.branch == b then
      match t.reference with
      | some r => if pat.isPrefixOf r then some r else none
      | none => none
    else none)

/-- The reference computed by the pre-save hook: take the greatest matching
reference under the store's descending sort, parse the digits after the last
`'-'` (`reference.split('-').pop()` then `parseInt`), use its successor, or
1 when nothing matches or nothing parses. -/
def genSeq (pat : List Char) (branch : Nat) (existing : List Txn) : Nat :=
  match maxString (matchingRefs existing branch pat) with
  | none => 1
  | some r =>
    match (jsSplit '-' r).getLast? with
    | none => 1
    | some comp =>
      match jsParseInt comp with
      | some n => n + 1
      | none => 1

/-- The full generated reference string. -/
def genReference (ty : TxType) (year month : Nat) (branch : Nat)
    (existing : List Txn) : List Char :=
  refPat ty year month ++ pad4 (genSeq (refPat ty year month) branch existing)

/-- Storage-layer failure of a transaction insert. -/
inductive TxSaveError
  | duplicateKey
deriving DecidableEq, Repr

/-- Saving a new transaction: the pre-save hook fills in a missing reference,
then the global (sparse) unique index on `reference` rejects any insert whose
reference some stored document already carries — across all branches. -/
def saveTransaction (year month : Nat) (t : Txn) (store : List Txn) :
    Except TxSaveError (Txn × List Txn) :=
  let t2 := if t.reference == none then
      { t with reference := some (genReference t.txType year month t.branch store) }
    else t
  match t2.reference with
  | some r =>
    if store.any (fun u => u.reference == some r) then .error .duplicateKey
    else .ok (t2, store ++ [t2])
  | none => .ok (t2, store ++ [t2])

theorem strLt_mkRef (ty : TxType) (year month a b : Nat)
    (ha : a ≤ 9999) (hb : b ≤ 9999) :
    strLt (mkRef ty year month a) (mkRef ty year month b) = decide (a < b) := by
  unfold mkRef
  rw [strLt_append_left, strLt_pad4 a b ha hb]

theorem maxString_map_mkRef (ty : TxType) (year month : Nat) :
    ∀ (seqs : List Nat), (∀ s ∈ seqs, s ≤ 9999) → seqs ≠ [] →
    maxString (seqs.map (mkRef ty year month))
      = some (mkRef ty year month (maxNat seqs)) := by
  intro seqs
  induction seqs with
  | nil => intro _ hne; exact absurd rfl hne
  | cons s rest ih =>
    intro hb _
    rcases hr : rest with _ | ⟨s2, rest2⟩
    · subst hr
      simp only [List.map_cons, List.map_nil, maxString]
      have : maxNat [s] = s := by
        rw [maxNat_cons]
        simp [maxNat]
      rw [this]
    · rw [← hr]
      have hrne : rest ≠ [] := by rw [hr]; simp
      have hbrest : ∀ x ∈ rest, x ≤ 9999 :=
        fun x hx => hb x (List.mem_cons_of_mem s hx)
      have hs : s ≤ 9999 := hb s (List.mem_cons_self s rest)
      have hmaxle : maxNat rest ≤ 9999 := hbrest _ (maxNat_mem rest hrne)
      simp only [List.map_cons, maxString, ih hbrest hrne,
        strLt_mkRef ty year month (maxNat rest) s hmaxle hs]
      by_cases hcmp : maxNat rest < s
      · have hmx : max s (maxNat rest) = s := by omega
        simp [hcmp, maxNat_cons, hmx]
      · have hmx : max s (maxNat rest) = maxNat rest := by omega
        simp [hcmp, maxNat_cons, hmx]

/-- C3: when the same-branch references matching the month pattern are
exactly the canonical ones for a list of sequence numbers (each between 1
and 9999), the generated reference is the canonical reference for the
successor of the highest existing sequence — 1 when none exist. -/
theorem transaction_reference_sequence
    (ty : TxType) (year month branch : Nat) (existing : List Txn) (seqs : List Nat)
    (hm : matchingRefs existing branch (refPat ty year month)
        = seqs.map (mkRef ty year month))
    (hbound : ∀ s ∈ seqs, 1 ≤ s ∧ s ≤ 9999) :
    genReference ty year month branch existing
      = mkRef ty year month (maxNat seqs + 1) := by
  unfold genReference genSeq
  rw [hm]
  rcases hs : seqs with _ | ⟨s0, rest⟩
  · simp [maxString, mkRef, maxNat]
  · rw [← hs]
    have hne : seqs ≠ [] := by rw [hs]; simp
    have hb' : ∀ s ∈ seqs, s ≤ 9999 := fun s h => (hbound s h).2
    have hmax : maxNat seqs ≤ 9999 := hb' _ (maxNat_mem seqs hne)
    have hshape : mkRef ty year month (maxNat seqs)
        = (typePrefixChars ty ++ '-' :: ymChars year month)
            ++ '-' :: pad4 (maxNat seqs) := by
      unfold mkRef refPat
      simp
    have hlast : (jsSplit '-' (mkRef ty year month (maxNat seqs))).getLast?
        = some (pad4 (maxNat seqs)) := by
      rw [hshape]
      exact jsSplit_getLast_append '-' _ _ (pad4_no_dash _ hmax)
    rw [maxString_map_mkRef ty year month seqs hb' hne]
    simp only [hlast, jsParseInt_pad4 (maxNat seqs) hmax]
    rfl

/-- Witness for C3, the §8 scenario: branch 1, income, May 2024. With no
matching transaction the generated reference is `IN-202405-0001`; with that
one stored, the next is `IN-202405-0002`. -/
theorem transaction_reference_sequence_witness :
    genReference .income 2024 5 1 [] = "IN-202405-0001".data ∧
    genReference .income 2024 5 1
        [⟨.income, "Fees".data, 10, 0, .completed, some "IN-202405-0001".data, 1, true⟩]
      = "IN-202405-0002".data := by
  constructor
  · have h := transaction_reference_sequence .income 2024 5 1 [] []
      (by rfl) (by simp)
    exact h.trans (by decide)
  · have h := transaction_reference_sequence .income 2024 5 1
      [⟨.income, "Fees".data, 10, 0, .completed, some "IN-202405-0001".data, 1, true⟩]
      [1] (by decide) (by decide)
    exact h.trans (by decide)

/-- C10: the generated reference never mentions the branch, while the unique
index on `reference` is global: two distinct branches that each create their
first transaction of a given type in the same month generate identical
references, and the second insert fails with a duplicate-key error. -/
theorem duplicate_reference_across_branches
    (ty : TxType) (year month b1 b2 : Nat) (store : List Txn) (t1 t2 : Txn)
    (hne : b1 ≠ b2)
    (ht1b : t1.branch = b1) (ht2b : t2.branch = b2)
    (ht1ty : t1.txType = ty) (ht2ty : t2.txType = ty)
    (ht1r : t1.reference = none) (ht2r : t2.reference = none)
    (h1 : matchingRefs store b1 (refPat ty year month) = [])
    (h2 : matchingRefs store b2 (refPat ty year month) = [])
    (hstore : ∀ u ∈ store, u.reference ≠ some (mkRef ty year month 1)) :
    ∃ t1' store1, saveTransaction year month t1 store = .ok (t1', store1) ∧
      t1'.reference = some (genReference ty year month b2 store1) ∧
      saveTransaction year month t2 store1 = .error .duplicateKey := by
  have hgen1 : genReference ty year month b1 store = mkRef ty year month 1 := by
    have h := transaction_reference_sequence ty year month b1 store []
      (by rw [h1]; rfl) (by simp)
    simpa [maxNat, digitsVal] using h
  have hany1 : store.any
      (fun u => u.reference == some (mkRef ty year month 1)) = false := by
    rw [Bool.eq_false_iff]
    intro hany
    rw [List.any_eq_true] at hany
    obtain ⟨u, hu, hprop⟩ := hany
    rw [beq_iff_eq] at hprop
    exact hstore u hu hprop
  have hsave1 : saveTransaction year month t1 store
      = .ok ({ t1 with reference := some (mkRef ty year month 1) },
             store ++ [{ t1 with reference := some (mkRef ty year month 1) }]) := by
    unfold saveTransaction
    rw [ht1ty, ht1b, hgen1]
    simp [ht1r, hany1]
  have hm2 : matchingRefs
      (store ++ [{ t1 with reference := some (mkRef ty year month 1) }]) b2
      (refPat ty year month) = [] := by
    unfold matchingRefs
    rw [List.filterMap_append]
    unfold matchingRefs at h2
    rw [h2]
    have hcond : (({ t1 with reference := some (mkRef ty year month 1) } : Txn).branch
        == b2) = false := by
      simp only [beq_eq_false_iff_ne, ne_eq]
      intro h
      rw [ht1b] at h
      exact hne h
    simp only [List.nil_append, List.filterMap_cons, hcond, Bool.false_eq_true,
      if_false, List.filterMap_nil]
  have hgen2 : genReference ty year month b2
      (store ++ [{ t1 with reference := some (mkRef ty year month 1) }])
      = mkRef ty year month 1 := by
    have h := transaction_reference_sequence ty year month b2
      (store ++ [{ t1 with reference := some (mkRef ty year month 1) }]) []
      (by rw [hm2]; rfl) (by simp)
    simpa [maxNat, digitsVal] using h
  have hany2 : (store ++ [{ t1 with reference := some (mkRef ty year month 1) }]).any
      (fun u => u.reference == some (mkRef ty year month 1)) = true := by
    rw [List.any_eq_true]
    exact ⟨{ t1 with reference := some (mkRef ty year month 1) },
      List.mem_append_right store (List.mem_cons_self _ _), by simp⟩
  have hsave2 : saveTransaction year month t2
      (store ++ [{ t1 with reference := some (mkRef ty year month 1) }])
      = .error .duplicateKey := by
    unfold saveTransaction
    rw [ht2ty, ht2b, hgen2]
    simp [ht2r, hany2]
  have hrefeq : ({ t1 with reference := some (mkRef ty year month 1) } : Txn).reference
      = some (genReference ty year month b2
          (store ++ [{ t1 with reference := some (mkRef ty year month 1) }])) := by
    rw [hgen2]
  exact ⟨_, _, hsave1, hrefeq, hsave2⟩

/-- Witness for C10: branches 1 and 2, both inserting their first income
transaction of May 2024 into an empty store. -/
theorem duplicate_reference_across_branches_witness :
    ∃ t1' store1, saveTransaction 2024 5
        ⟨.income, "Fees".data, 10, 0, .completed, none, 1, true⟩ [] = .ok (t1', store1) ∧
      t1'.reference = some (genReference .income 2024 5 2 store1) ∧
      saveTransaction 2024 5
        ⟨.income, "Fees".data, 25, 0, .completed, none, 2, true⟩ store1
        = .error .duplicateKey :=
  duplicate_reference_across_branches .income 2024 5 1 2 []
    ⟨.income, "Fees".data, 10, 0, .completed, none, 1, true⟩
    ⟨.income, "Fees".data, 25, 0, .completed, none, 2, true⟩
    (by decide) rfl rfl rfl rfl rfl rfl rfl rfl (by simp)

end Wintergreen
